import Mathlib

/-!
Verification of the TPS translation proxy core.

This file gives a shallow embedding of the core subsystems of the
repository — the cache-key fingerprint (tps/core/key_generator.py), the
DAO over the SQLite tables (tps/db/dao.py), the cost controller
(tps/core/cost_control.py) and the multi-tier translation workflow
(tps/core/workflow.py) — and proves the frozen claims about them.

Machine-level conventions of the embedding:
- SQLite tables become association lists of row structures; CURRENT_TIMESTAMP
  becomes an explicit integer clock threaded into each operation.
- Python float cost counters become rationals.
- The three backends become oracles describing the outcome of each outbound
  call (success / quota error / other error / unavailable); the workflow is a
  pure state-transition function that also emits a trace of observable events
  (backend calls, refinement calls, usage recording, cache writes).
-/

/-! ## MD5 (RFC 1321), executable, over byte lists -/

/-- Per-round left-rotation amounts of MD5. -/
def md5Shifts : List Nat :=
  [7, 12, 17, 22, 7, 12, 17, 22, 7, 12, 17, 22, 7, 12, 17, 22,
   5, 9, 14, 20, 5, 9, 14, 20, 5, 9, 14, 20, 5, 9, 14, 20,
   4, 11, 16, 23, 4, 11, 16, 23, 4, 11, 16, 23, 4, 11, 16, 23,
   6, 10, 15, 21, 6, 10, 15, 21, 6, 10, 15, 21, 6, 10, 15, 21]

/-- The 64 sine-derived MD5 round constants. -/
def md5K : List Nat :=
  [0xd76aa478, 0xe8c7b756, 0x242070db, 0xc1bdceee,
   0xf57c0faf, 0x4787c62a, 0xa8304613, 0xfd469501,
   0x698098d8, 0x8b44f7af, 0xffff5bb1, 0x895cd7be,
   0x6b901122, 0xfd987193, 0xa679438e, 0x49b40821,
   0xf61e2562, 0xc040b340, 0x265e5a51, 0xe9b6c7aa,
   0xd62f105d, 0x02441453, 0xd8a1e681, 0xe7d3fbc8,
   0x21e1cde6, 0xc33707d6, 0xf4d50d87, 0x455a14ed,
   0xa9e3e905, 0xfcefa3f8, 0x676f02d9, 0x8d2a4c8a,
   0xfffa3942, 0x8771f681, 0x6d9d6122, 0xfde5380c,
   0xa4beea44, 0x4bdecfa9, 0xf6bb4b60, 0xbebfbc70,
   0x289b7ec6, 0xeaa127fa, 0xd4ef3085, 0x04881d05,
   0xd9d4d039, 0xe6db99e5, 0x1fa27cf8, 0xc4ac5665,
   0xf4292244, 0x432aff97, 0xab9423a7, 0xfc93a039,
   0x655b59c3, 0x8f0ccc92, 0xffeff47d, 0x85845dd1,
   0x6fa87e4f, 0xfe2ce6e0, 0xa3014314, 0x4e0811a1,
   0xf7537e82, 0xbd3af235, 0x2ad7d2bb, 0xeb86d391]

/-- 32-bit left rotation on naturals. -/
def rotl32 (x n : Nat) : Nat :=
  ((x <<< n) ||| (x >>> (32 - n))) % 4294967296

/-- Little-endian byte serialization of a natural, fixed width. -/
def toBytesLE : Nat → Nat → List Nat
  | 0, _ => []
  | k + 1, n => (n % 256) :: toBytesLE k (n / 256)

/-- Group bytes into little-endian 32-bit words. -/
def bytesToWordsLE : List Nat → List Nat
  | b0 :: b1 :: b2 :: b3 :: rest =>
      (b0 + 256 * b1 + 65536 * b2 + 16777216 * b3) :: bytesToWordsLE rest
  | _ => []

/-- One MD5 round: state is the (A, B, C, D) word tuple, i the round index. -/
def md5Round (M : List Nat) (st : Nat × Nat × Nat × Nat) (i : Nat) :
    Nat × Nat × Nat × Nat :=
  let A := st.1
  let B := st.2.1
  let C := st.2.2.1
  let D := st.2.2.2
  let Fg : Nat × Nat :=
    if i < 16 then ((B &&& C) ||| ((0xFFFFFFFF ^^^ B) &&& D), i)
    else if i < 32 then ((D &&& B) ||| ((0xFFFFFFFF ^^^ D) &&& C), (5 * i + 1) % 16)
    else if i < 48 then (B ^^^ C ^^^ D, (3 * i + 5) % 16)
    else (C ^^^ (B ||| (0xFFFFFFFF ^^^ D)), (7 * i) % 16)
  let F := (Fg.1 + A + md5K.getD i 0 + M.getD Fg.2 0) % 4294967296
  let Bn := (B + rotl32 F (md5Shifts.getD i 0)) % 4294967296
  (D, Bn, B, C)

/-- Process one 64-byte chunk. -/
def md5Chunk (st : Nat × Nat × Nat × Nat) (chunk : List Nat) :
    Nat × Nat × Nat × Nat :=
  let M := bytesToWordsLE chunk
  let r := (List.range 64).foldl (md5Round M) st
  ((st.1 + r.1) % 4294967296, (st.2.1 + r.2.1) % 4294967296,
   (st.2.2.1 + r.2.2.1) % 4294967296, (st.2.2.2 + r.2.2.2) % 4294967296)

/-- Split a byte list into 64-byte chunks (fueled structural recursion so the
kernel can evaluate it). -/
def chunks64Fuel : Nat → List Nat → List (List Nat)
  | 0, _ => []
  | _, [] => []
  | fuel + 1, a :: rest => ((a :: rest).take 64) :: chunks64Fuel fuel ((a :: rest).drop 64)

/-- Split a byte list into 64-byte chunks. -/
def chunks64 (l : List Nat) : List (List Nat) := chunks64Fuel l.length l

/-- MD5 padding: 0x80, zeros to 56 mod 64, then the bit length as 64-bit LE. -/
def md5Pad (msg : List Nat) : List Nat :=
  let padLen := (119 - (msg.length % 64)) % 64
  msg ++ [0x80] ++ List.replicate padLen 0 ++ toBytesLE 8 ((8 * msg.length) % 18446744073709551616)

/-- The 16-byte MD5 digest of a byte list. -/
def md5Bytes (msg : List Nat) : List Nat :=
  let r := (chunks64 (md5Pad msg)).foldl md5Chunk
    (0x67452301, 0xefcdab89, 0x98badcfe, 0x10325476)
  toBytesLE 4 r.1 ++ toBytesLE 4 r.2.1 ++ toBytesLE 4 r.2.2.1 ++ toBytesLE 4 r.2.2.2

/-- Lowercase hexadecimal digit for a value below 16. -/
def hexDigitChar (n : Nat) : Char :=
  if n < 10 then Char.ofNat (48 + n) else Char.ofNat (87 + n)

/-- Two lowercase hex characters of one byte. -/
def byteToHex (b : Nat) : List Char :=
  [hexDigitChar (b / 16), hexDigitChar (b % 16)]

/-- Lowercase-hex rendering of the MD5 digest, as hashlib hexdigest does. -/
def md5Hex (msg : List Nat) : String :=
  String.mk (((md5Bytes msg).map byteToHex).flatten)

/-- UTF-8 encoding of one character. -/
def utf8Char (c : Char) : List Nat :=
  let n := c.toNat
  if n < 0x80 then [n]
  else if n < 0x800 then
    [0xC0 ||| (n >>> 6), 0x80 ||| (n &&& 0x3F)]
  else if n < 0x10000 then
    [0xE0 ||| (n >>> 12), 0x80 ||| ((n >>> 6) &&& 0x3F), 0x80 ||| (n &&& 0x3F)]
  else
    [0xF0 ||| (n >>> 18), 0x80 ||| ((n >>> 12) &&& 0x3F),
     0x80 ||| ((n >>> 6) &&& 0x3F), 0x80 ||| (n &&& 0x3F)]

/-- UTF-8 bytes of a string, as Python str.encode("utf-8"). -/
def strBytes (s : String) : List Nat := (s.data.map utf8Char).flatten

/-! ## Fingerprint (tps/core/key_generator.py) -/

/-- Python str.lower(), restricted to ASCII case mapping (all language and
format codes in play are ASCII), as a kernel-reducible list map. -/
def strToLower (s : String) : String := String.mk (s.data.map Char.toLower)

/-- Python str.strip(): drop leading and trailing whitespace, keeping
internal whitespace verbatim. -/
def strTrim (s : String) : String :=
  String.mk (((s.data.dropWhile Char.isWhitespace).reverse.dropWhile
    Char.isWhitespace).reverse)

/-- Python truthiness of the expression: format_type or "plain"
(None and the empty string both fall back to the default). -/
def pyOrDefault (o : Option String) (dflt : String) : String :=
  match o with
  | none => dflt
  | some s => if s = "" then dflt else s

/-- The composite string hashed by generate_cache_key:
source|target|format|text after the source's normalization
(text stripped; language codes lowercased then stripped; format defaulted
to "plain", lowercased, stripped). -/
def cacheComposite (text source_lang target_lang : String)
    (format_type : Option String) : String :=
  strTrim (strToLower source_lang) ++ "|" ++ strTrim (strToLower target_lang) ++ "|" ++
    strTrim (strToLower (pyOrDefault format_type "plain")) ++ "|" ++ strTrim text

/-- generate_cache_key from tps/core/key_generator.py: MD5 hex digest of the
UTF-8 encoded composite. -/
def generate_cache_key (text source_lang target_lang : String)
    (format_type : Option String) : String :=
  md5Hex (strBytes (cacheComposite text source_lang target_lang format_type))

/-- Lowercase hex digit predicate used to state that keys are lowercase hex. -/
def isHexLower (c : Char) : Bool :=
  ("0123456789abcdef".data).contains c

/-! ## Data model (tps/db/connection.py schema, tps/db/dao.py rows)

SQLite tables are embedded as lists of row structures; CURRENT_TIMESTAMP is
an explicit integer clock argument (seconds); Python float cost counters are
rationals. -/

/-- One row of the translations table. -/
structure CachedTranslation where
  cache_key : String
  source_lang : String
  target_lang : String
  original_text : String
  translated_text : String
  provider : String
  is_refined : Bool
  refinement_model : Option String
  char_count : Nat
  created_at : Int
  last_accessed_at : Int
  expires_at : Option Int
deriving DecidableEq

/-- One row of the daily_usage_stats table, primary key (date, provider). -/
structure DailyUsageStats where
  date : String
  provider : String
  request_count : Nat
  char_count : Nat
  token_input : Nat
  token_output : Nat
  cost_estimated : Rat
deriving DecidableEq

/-- The embedded database: the two tables of the schema. -/
structure DBState where
  translations : List CachedTranslation
  usage : List DailyUsageStats
deriving DecidableEq

/-! ## TranslationDAO (tps/db/dao.py) -/

/-- Primary-key lookup in the translations table, ignoring expiry; this is
the row an INSERT ... ON CONFLICT(cache_key) conflicts with. -/
def find_translation (db : DBState) (cache_key : String) : Option CachedTranslation :=
  db.translations.find? (fun r => r.cache_key == cache_key)

/-- get_cached_translation: SELECT by key with the expiry filter
(expires_at IS NULL OR expires_at > CURRENT_TIMESTAMP). -/
def get_cached_translation (db : DBState) (now : Int) (cache_key : String) :
    Option CachedTranslation :=
  db.translations.find? (fun r =>
    r.cache_key == cache_key &&
      (match r.expires_at with
       | none => true
       | some e => decide (now < e)))

/-- upsert_translation: INSERT with created_at = last_accessed_at = now,
ON CONFLICT(cache_key) DO UPDATE SET only translated_text, provider,
is_refined, refinement_model and last_accessed_at = now. char_count is
len(original_text). -/
def upsert_translation (db : DBState) (now : Int)
    (cache_key source_lang target_lang original_text translated_text provider : String)
    (is_refined : Bool) (refinement_model : Option String)
    (expires_at : Option Int) : DBState :=
  match find_translation db cache_key with
  | none =>
      { db with translations := db.translations ++ [{
          cache_key := cache_key, source_lang := source_lang,
          target_lang := target_lang, original_text := original_text,
          translated_text := translated_text, provider := provider,
          is_refined := is_refined, refinement_model := refinement_model,
          char_count := original_text.length, created_at := now,
          last_accessed_at := now, expires_at := expires_at }] }
  | some _ =>
      { db with translations := db.translations.map (fun r =>
          if r.cache_key == cache_key then
            { r with
              translated_text := translated_text, provider := provider,
              is_refined := is_refined, refinement_model := refinement_model,
              last_accessed_at := now }
          else r) }

/-- update_last_accessed: UPDATE last_accessed_at = now WHERE cache_key = key;
silently a no-op when the row is absent. -/
def update_last_accessed (db : DBState) (now : Int) (cache_key : String) : DBState :=
  { db with translations := db.translations.map (fun r =>
      if r.cache_key == cache_key then { r with last_accessed_at := now } else r) }

/-- delete_expired_entries: DELETE WHERE last_accessed_at <
datetime(now, -days_old days); returns the deleted-row count. -/
def delete_expired_entries (db : DBState) (now : Int) (days_old : Nat) :
    DBState × Nat :=
  let cutoff : Int := now - (days_old : Int) * 86400
  ({ db with translations :=
      db.translations.filter (fun r => !decide (r.last_accessed_at < cutoff)) },
   (db.translations.filter (fun r => decide (r.last_accessed_at < cutoff))).length)

/-- get_daily_usage: SELECT FROM daily_usage_stats WHERE date AND provider. -/
def get_daily_usage (db : DBState) (target_date provider : String) :
    Option DailyUsageStats :=
  db.usage.find? (fun r => r.date == target_date && r.provider == provider)

/-- increment_usage_stats: INSERT (date, provider, 1, deltas)
ON CONFLICT(date, provider) DO UPDATE adding the deltas and bumping
request_count by one; target_date defaults to today. -/
def increment_usage_stats (db : DBState) (today provider : String)
    (char_count token_input token_output : Nat) (cost_estimated : Rat)
    (target_date : Option String) : DBState :=
  let d := target_date.getD today
  match get_daily_usage db d provider with
  | none =>
      { db with usage := db.usage ++ [{
          date := d, provider := provider, request_count := 1,
          char_count := char_count, token_input := token_input,
          token_output := token_output, cost_estimated := cost_estimated }] }
  | some _ =>
      { db with usage := db.usage.map (fun r =>
          if r.date == d && r.provider == provider then
            { r with
              request_count := r.request_count + 1,
              char_count := r.char_count + char_count,
              token_input := r.token_input + token_input,
              token_output := r.token_output + token_output,
              cost_estimated := r.cost_estimated + cost_estimated }
          else r) }

/-- The cache-hit count the dashboard derives from usage rows with
provider = cache (get_dashboard_stats in tps/db/dao.py). -/
def dashboard_cache_hits (db : DBState) : Nat :=
  ((db.usage.filter (fun r => r.provider == "cache")).map
    (fun r => r.request_count)).sum

/-! ## CostController (tps/core/cost_control.py) -/

/-- The budget and pricing configuration (tps/config.py defaults). -/
structure Settings where
  daily_budget_google : Rat := 10
  daily_budget_openai : Rat := 5
  google_price_per_million_chars : Rat := 20
deriving DecidableEq

/-- Process state: the database, the in-memory quota-exceeded set, the wall
clock and the current local date as used by date.today().isoformat(). -/
structure SysState where
  db : DBState
  quota_exceeded : List String
  now : Int
  today : String
deriving DecidableEq

/-- set_quota_exceeded: add the lowercased provider to the in-memory set. -/
def set_quota_exceeded (s : SysState) (provider : String) : SysState :=
  { s with quota_exceeded := strToLower provider :: s.quota_exceeded }

/-- is_quota_exceeded: membership of the lowercased provider. -/
def is_quota_exceeded (s : SysState) (provider : String) : Bool :=
  s.quota_exceeded.contains (strToLower provider)

/-- get_total_openai_cost: todays openai_trans plus openai_refine cost. -/
def get_total_openai_cost (db : DBState) (d : String) : Rat :=
  (match get_daily_usage db d "openai_trans" with
   | some u => u.cost_estimated
   | none => 0) +
  (match get_daily_usage db d "openai_refine" with
   | some u => u.cost_estimated
   | none => 0)

/-- is_openai_budget_exceeded: combined cost today at or above the budget. -/
def is_openai_budget_exceeded (st : Settings) (s : SysState) : Bool :=
  decide (st.daily_budget_openai ≤ get_total_openai_cost s.db s.today)

/-- Kernel-reducible version of str.startswith. -/
def strStartsWith (s p : String) : Bool := List.isPrefixOf p.data s.data

/-- is_budget_exceeded: per-provider daily budget predicate; google uses
chars / 1M times the per-million price, openai sub-providers their
accumulated cost; no row or any other provider means not exceeded. -/
def is_budget_exceeded (st : Settings) (s : SysState) (provider : String) : Bool :=
  let p := strToLower provider
  match get_daily_usage s.db s.today p with
  | none => false
  | some usage =>
      if p = "google" then
        decide (st.daily_budget_google ≤
          (usage.char_count : Rat) / 1000000 * st.google_price_per_million_chars)
      else if strStartsWith p "openai" then
        decide (st.daily_budget_openai ≤ usage.cost_estimated)
      else false

/-- record_usage: single write-through to increment_usage_stats for today,
with the provider lowercased. -/
def record_usage (s : SysState) (provider : String)
    (char_count token_input token_output : Nat) (cost_estimated : Rat) : SysState :=
  { s with
    db := increment_usage_stats s.db s.today (strToLower provider)
      char_count token_input token_output cost_estimated none }

/-! ## Workflow (tps/core/workflow.py)

The three backends are oracles fixing the outcome of each outbound call; the
workflow is a pure state transition that also emits a trace of the
observable events of the request. -/

/-- TranslationResult from tps/clients/base.py. -/
structure TranslationResult where
  text : String
  provider : String
  char_count : Nat
  token_input : Nat
  token_output : Nat
  cost_estimated : Rat
deriving DecidableEq

/-- RefinementResult from tps/clients/base.py. -/
structure RefinementResult where
  text : String
  model : String
  token_input : Nat
  token_output : Nat
  cost_estimated : Rat
deriving DecidableEq

/-- Outcome of one backend translate call: success, a raised
QuotaExceededException, or any other raised exception. -/
inductive TranslateOutcome where
  | ok : TranslationResult → TranslateOutcome
  | quotaError : TranslateOutcome
  | otherError : TranslateOutcome
deriving DecidableEq

/-- Outcome of one refine call. -/
inductive RefineOutcome where
  | ok : RefinementResult → RefineOutcome
  | refineError : RefineOutcome
deriving DecidableEq

/-- Oracles for the three backends of the tier walk. -/
structure Backends where
  deepl_available : Bool
  deepl_outcome : TranslateOutcome
  openai_available : Bool
  openai_outcome : TranslateOutcome
  openai_refine_outcome : RefineOutcome
  google_available : Bool
  google_outcome : TranslateOutcome
deriving DecidableEq

/-- Observable events of one translate request. -/
inductive Event where
  | translateCall : String → Event
  | refineCall : Event
  | usageRecord : String → Event
  | cacheWrite : String → Event
  | touch : String → Event
deriving DecidableEq

/-- TranslationOptions from tps/core/workflow.py with its defaults. -/
structure TranslationOptions where
  format_type : String := "plain"
  enable_refinement : Bool := false
  refinement_model : Option String := none
deriving DecidableEq

/-- TranslationResponse from tps/core/workflow.py with its defaults. -/
structure TranslationResponse where
  success : Bool
  text : Option String := none
  provider : Option String := none
  is_refined : Bool := false
  is_cached : Bool := false
  error : Option String := none
  original_text : Option String := none
deriving DecidableEq

/-- Tier 2 of _execute_translation_chain: DeepL. Gate: the in-memory quota
flag. On QuotaExceededException the flag is set; usage is recorded as
char_count only. -/
def deepl_tier (b : Backends) (s : SysState) :
    Option (TranslationResult × String) × SysState × List Event :=
  if is_quota_exceeded s "deepl" then (none, s, [])
  else if b.deepl_available then
    match b.deepl_outcome with
    | .ok r =>
        (some (r, "deepl"), record_usage s "deepl" r.char_count 0 0 0,
         [.translateCall "deepl", .usageRecord "deepl"])
    | .quotaError => (none, set_quota_exceeded s "deepl", [.translateCall "deepl"])
    | .otherError => (none, s, [.translateCall "deepl"])
  else (none, s, [])

/-- Tier 3: OpenAI translation. Gate: the combined OpenAI budget. A quota
error is caught like any other exception, with no flag. Usage is recorded
under openai_trans as tokens and cost. -/
def openai_tier (st : Settings) (b : Backends) (s : SysState) :
    Option (TranslationResult × String) × SysState × List Event :=
  if is_openai_budget_exceeded st s then (none, s, [])
  else if b.openai_available then
    match b.openai_outcome with
    | .ok r =>
        (some (r, "openai"),
         record_usage s "openai_trans" 0 r.token_input r.token_output r.cost_estimated,
         [.translateCall "openai", .usageRecord "openai_trans"])
    | .quotaError => (none, s, [.translateCall "openai"])
    | .otherError => (none, s, [.translateCall "openai"])
  else (none, s, [])

/-- Tier 4: Google. Gate: the google daily budget. Usage is recorded as
chars and cost. -/
def google_tier (st : Settings) (b : Backends) (s : SysState) :
    Option (TranslationResult × String) × SysState × List Event :=
  if is_budget_exceeded st s "google" then (none, s, [])
  else if b.google_available then
    match b.google_outcome with
    | .ok r =>
        (some (r, "google"),
         record_usage s "google" r.char_count 0 0 r.cost_estimated,
         [.translateCall "google", .usageRecord "google"])
    | .quotaError => (none, s, [.translateCall "google"])
    | .otherError => (none, s, [.translateCall "google"])
  else (none, s, [])

/-- _execute_translation_chain: DeepL, then OpenAI, then Google; every
per-tier failure degrades to trying the next tier. -/
def execute_translation_chain (st : Settings) (b : Backends) (s : SysState) :
    Option (TranslationResult × String) × SysState × List Event :=
  match deepl_tier b s with
  | (some rp, s1, ev1) => (some rp, s1, ev1)
  | (none, s1, ev1) =>
    match openai_tier st b s1 with
    | (some rp, s2, ev2) => (some rp, s2, ev1 ++ ev2)
    | (none, s2, ev2) =>
      match google_tier st b s2 with
      | (some rp, s3, ev3) => (some rp, s3, ev1 ++ ev2 ++ ev3)
      | (none, s3, ev3) => (none, s3, ev1 ++ ev2 ++ ev3)

/-- _try_refinement: re-checks the combined OpenAI budget, then calls
refine; on success records usage under openai_refine; any failure returns
none (non-fatal). -/
def try_refinement (st : Settings) (b : Backends) (s : SysState) :
    Option RefinementResult × SysState × List Event :=
  if is_openai_budget_exceeded st s then (none, s, [])
  else
    match b.openai_refine_outcome with
    | .ok r =>
        (some r,
         record_usage s "openai_refine" 0 r.token_input r.token_output r.cost_estimated,
         [.refineCall, .usageRecord "openai_refine"])
    | .refineError => (none, s, [.refineCall])

/-- Steps 2-6 of TranslationWorkflow.translate past the cache-hit return:
run the chain; on failure return the structured error with no cache write;
on success optionally refine (only when enabled and the producing provider
is not openai) and upsert the final row under the producing provider. -/
def run_chain_and_store (st : Settings) (b : Backends) (s : SysState)
    (text source_lang target_lang : String) (options : TranslationOptions)
    (cache_key : String) : TranslationResponse × SysState × List Event :=
  match execute_translation_chain st b s with
  | (none, s1, ev1) =>
      ({ success := false,
         error := some "All translation providers failed or exceeded budget",
         original_text := some text }, s1, ev1)
  | (some (result, provider_used), s1, ev1) =>
      let step :=
        if options.enable_refinement && !(provider_used == "openai") then
          try_refinement st b s1
        else (none, s1, ([] : List Event))
      let translated_text :=
        match step.1 with
        | some rr => rr.text
        | none => result.text
      let is_refined :=
        match step.1 with
        | some _ => true
        | none => false
      let refinement_model :=
        match step.1 with
        | some rr => some rr.model
        | none => none
      let s3 := { step.2.1 with
          db := upsert_translation step.2.1.db step.2.1.now
            cache_key source_lang target_lang text translated_text provider_used
            is_refined refinement_model none }
      ({ success := true, text := some translated_text,
         provider := some provider_used, is_refined := is_refined,
         is_cached := false }, s3, ev1 ++ step.2.2 ++ [.cacheWrite cache_key])

namespace TranslationWorkflow

/-- TranslationWorkflow.translate: fingerprint, cache lookup, hit handling,
and otherwise the chain-refine-store path. -/
def translate (st : Settings) (b : Backends) (s : SysState)
    (text source_lang target_lang : String) (options : TranslationOptions) :
    TranslationResponse × SysState × List Event :=
  let cache_key := generate_cache_key text source_lang target_lang (some options.format_type)
  match get_cached_translation s.db s.now cache_key with
  | some cached =>
      if !options.enable_refinement || cached.is_refined then
        ({ success := true, text := some cached.translated_text,
           provider := some "cache", is_refined := cached.is_refined,
           is_cached := true },
         { s with db := update_last_accessed s.db s.now cache_key },
         [.touch cache_key])
      else run_chain_and_store st b s text source_lang target_lang options cache_key
  | none => run_chain_and_store st b s text source_lang target_lang options cache_key

end TranslationWorkflow

/-- The primary-key invariant SQLite maintains on the translations table. -/
def uniqueKeys (db : DBState) : Prop :=
  ∀ r1 ∈ db.translations, ∀ r2 ∈ db.translations, r1.cache_key = r2.cache_key → r1 = r2

instance (db : DBState) : Decidable (uniqueKeys db) := by
  unfold uniqueKeys
  infer_instance

/-- A sample unexpired cache row used in concrete instances. -/
def rowK : CachedTranslation :=
  ⟨"k1", "en", "fr", "hi", "salut", "deepl", false, none, 2, 5, 5, none⟩

/-- A sample cache row whose expires_at lies in the past of the instants
used in the concrete instances. -/
def rowE : CachedTranslation :=
  ⟨"k2", "en", "fr", "hi", "salut", "deepl", false, none, 2, 5, 5, some 50⟩

/-! ## Workflow-level helper lemmas -/

/-- The backend translate calls of an event trace, in order. -/
def translateCallsOf (ev : List Event) : List String :=
  ev.filterMap (fun e =>
    match e with
    | Event.translateCall p => some p
    | _ => none)

/-- Default settings, inert backends, an empty process state, plain options:
concrete instances for the workflow claims. -/
def stD : Settings := ⟨10, 5, 20⟩

/-- Backends where every availability probe fails. -/
def bNone : Backends :=
  ⟨false, TranslateOutcome.otherError, false, TranslateOutcome.otherError,
   RefineOutcome.refineError, false, TranslateOutcome.otherError⟩

/-- Default translate options: plain format, no refinement. -/
def optsD : TranslationOptions := ⟨"plain", false, none⟩

/-- Empty-database process state. -/
def s0 : SysState := ⟨⟨[], []⟩, [], 0, "2026-02-03"⟩

/-- The fingerprint of the concrete hit scenario. -/
def keyHello : String := generate_cache_key "Hello" "en" "fr" (some "plain")

/-- A cached row stored under that fingerprint. -/
def rowHit : CachedTranslation :=
  ⟨keyHello, "en", "fr", "Hello", "Bonjour", "deepl", false, none, 5, 3, 3, none⟩

/-- Process state holding the hit row, clock strictly past the row times. -/
def sHit : SysState := ⟨⟨[rowHit], []⟩, [], 7, "2026-02-03"⟩

/-- A usage row putting the day's openai_trans cost at 10 USD. -/
def rowBud : DailyUsageStats := ⟨"2026-02-03", "openai_trans", 1, 0, 100, 100, 10⟩

/-- State with the deepl quota flag set and the OpenAI budget exceeded. -/
def sQB : SysState := ⟨⟨[], [rowBud]⟩, ["deepl"], 0, "2026-02-03"⟩

/-- A concrete deepl translation result. -/
def resD : TranslationResult := ⟨"Bonjour", "deepl", 5, 0, 0, 0⟩

/-- A concrete refinement result. -/
def refR : RefinementResult := ⟨"Salut", "gpt-4o-mini", 7, 8, 0⟩

/-- Backends where deepl succeeds and refinement succeeds. -/
def bRef : Backends :=
  ⟨true, TranslateOutcome.ok resD, false, TranslateOutcome.otherError,
   RefineOutcome.ok refR, false, TranslateOutcome.otherError⟩

/-- Options requesting refinement. -/
def optsR : TranslationOptions := ⟨"plain", true, none⟩

/-- The state after recording the deepl usage of the concrete run. -/
def sRec : SysState :=
  ⟨⟨[], [⟨"2026-02-03", "deepl", 1, 5, 0, 0, 0⟩]⟩, [], 0, "2026-02-03"⟩

/-! ## Theorems -/

set_option maxRecDepth 8192 in
example : md5Hex (strBytes "abc") = "900150983cd24fb0d6963f7d28e17f72" := by decide

set_option maxRecDepth 8192 in
example : md5Hex (strBytes "") = "d41d8cd98f00b204e9800998ecf8427e" := by decide

set_option maxRecDepth 8192 in
example : generate_cache_key "Hello" "en" "zh-tw" none = "4d68b02a0f5abc6abfff7d49586f4dbb" := by decide

/-! ## General facts about the digest rendering -/

theorem toBytesLE_length (k : Nat) : ∀ n, (toBytesLE k n).length = k := by
  induction k with
  | zero => intro n; rfl
  | succ k ih => intro n; simp [toBytesLE, ih]

theorem md5Bytes_length (msg : List Nat) : (md5Bytes msg).length = 16 := by
  simp [md5Bytes, toBytesLE_length]

theorem flatten_map_byteToHex_length (l : List Nat) :
    ((l.map byteToHex).flatten).length = 2 * l.length := by
  induction l with
  | nil => rfl
  | cons b rest ih => simp [byteToHex, ih]; ring

theorem md5Hex_length (msg : List Nat) : (md5Hex msg).length = 32 := by
  show ((((md5Bytes msg).map byteToHex).flatten)).length = 32
  rw [flatten_map_byteToHex_length, md5Bytes_length]

theorem toBytesLE_lt (k : Nat) : ∀ n, ∀ x ∈ toBytesLE k n, x < 256 := by
  induction k with
  | zero => intro n x hx; simp [toBytesLE] at hx
  | succ k ih =>
    intro n x hx
    simp only [toBytesLE, List.mem_cons] at hx
    rcases hx with h | h
    · omega
    · exact ih _ _ h

theorem md5Bytes_lt (msg : List Nat) : ∀ x ∈ md5Bytes msg, x < 256 := by
  intro x hx
  simp only [md5Bytes, List.mem_append] at hx
  rcases hx with ((h | h) | h) | h <;> exact toBytesLE_lt _ _ _ h

theorem hexDigitChar_isHexLower {n : Nat} (h : n < 16) :
    isHexLower (hexDigitChar n) = true := by
  interval_cases n <;> decide

theorem md5Hex_chars (msg : List Nat) :
    ∀ c ∈ (md5Hex msg).data, isHexLower c = true := by
  intro c hc
  have hc' : c ∈ ((md5Bytes msg).map byteToHex).flatten := hc
  rw [List.mem_flatten] at hc'
  obtain ⟨l, hl, hcl⟩ := hc'
  rw [List.mem_map] at hl
  obtain ⟨b, hb, rfl⟩ := hl
  have hblt := md5Bytes_lt msg b hb
  simp only [byteToHex, List.mem_cons, List.not_mem_nil, or_false] at hcl
  rcases hcl with rfl | rfl
  · exact hexDigitChar_isHexLower (by omega)
  · exact hexDigitChar_isHexLower (Nat.mod_lt _ (by norm_num))

set_option maxRecDepth 8192 in
/-- Claim C1: generate_cache_key is a pure function returning the
lowercase-hex MD5 digest (always 32 characters) of the UTF-8 encoding of
source|target|format|text, where source and target are lowercased and
trimmed with no underscore substitution, format defaults to "plain" and is
lowercased, and text is stripped of leading and trailing whitespace only.
Consequently keys for "EN" and "en" collide, keys for "zh_TW" and "zh-TW"
do not, keys for "  Hello  " and "Hello" collide, and keys for
"Hello World" and "HelloWorld" do not. -/
theorem C1_generate_cache_key_contract :
    (∀ t sl tl ft, (generate_cache_key t sl tl ft).length = 32)
    ∧ (∀ t sl tl ft, (generate_cache_key t sl tl ft).data.all isHexLower = true)
    ∧ (∀ t sl tl ft, generate_cache_key t sl tl ft =
        md5Hex (strBytes (strTrim (strToLower sl) ++ "|" ++ strTrim (strToLower tl)
          ++ "|" ++ strTrim (strToLower (pyOrDefault ft "plain")) ++ "|" ++ strTrim t)))
    ∧ (∀ t sl tl, generate_cache_key t sl tl none = generate_cache_key t sl tl (some "plain"))
    ∧ (∀ t tl ft, generate_cache_key t "EN" tl ft = generate_cache_key t "en" tl ft)
    ∧ (∀ sl tl ft, generate_cache_key "  Hello  " sl tl ft = generate_cache_key "Hello" sl tl ft)
    ∧ generate_cache_key "Hello" "zh_TW" "en" none ≠ generate_cache_key "Hello" "zh-TW" "en" none
    ∧ generate_cache_key "Hello World" "en" "zh-tw" none ≠ generate_cache_key "HelloWorld" "en" "zh-tw" none := by
  refine ⟨?_, ?_, ?_, ?_, ?_, ?_, ?_, ?_⟩
  · intro t sl tl ft
    exact md5Hex_length _
  · intro t sl tl ft
    rw [List.all_eq_true]
    intro c hc
    exact md5Hex_chars _ c hc
  · intro t sl tl ft
    rfl
  · intro t sl tl
    rfl
  · intro t tl ft
    unfold generate_cache_key cacheComposite
    rw [show strTrim (strToLower "EN") = strTrim (strToLower "en") from by decide]
  · intro sl tl ft
    unfold generate_cache_key cacheComposite
    rw [show strTrim "  Hello  " = strTrim "Hello" from by decide]
  · decide
  · decide

/-! ## Generic lemmas about find? over row updates -/

theorem find?_map_pointwise {α : Type} (q : α → Bool) (f : α → α)
    (hq : ∀ r, q (f r) = q r) :
    ∀ l : List α, (l.map f).find? q = (l.find? q).map f := by
  intro l
  induction l with
  | nil => rfl
  | cons a l ih =>
    cases ha : q a with
    | true =>
      rw [List.map_cons, List.find?_cons_of_pos _ (by rw [hq a]; exact ha),
        List.find?_cons_of_pos _ ha]
      rfl
    | false =>
      rw [List.map_cons, List.find?_cons_of_neg _ (by simp [hq a, ha]),
        List.find?_cons_of_neg _ (by simp [ha]), ih]

theorem find?_map_disjoint {α : Type} (q' : α → Bool) (f : α → α)
    (hq : ∀ r, q' (f r) = q' r) (hid : ∀ r, q' r = true → f r = r) :
    ∀ l : List α, (l.map f).find? q' = l.find? q' := by
  intro l
  induction l with
  | nil => rfl
  | cons a l ih =>
    cases ha : q' a with
    | true =>
      rw [List.map_cons, List.find?_cons_of_pos _ (by rw [hq a]; exact ha),
        List.find?_cons_of_pos _ ha, hid a ha]
    | false =>
      rw [List.map_cons, List.find?_cons_of_neg _ (by simp [hq a, ha]),
        List.find?_cons_of_neg _ (by simp [ha]), ih]

theorem find?_append_right_none {α : Type} (q : α → Bool) (x : α) (hx : q x = false) :
    ∀ l : List α, (l ++ [x]).find? q = l.find? q := by
  intro l
  induction l with
  | nil => simp [List.find?, hx]
  | cons a l ih =>
    cases ha : q a with
    | true => simp [List.find?_cons, ha]
    | false => simp [List.find?_cons, ha, ih]

theorem find?_append_found {α : Type} (q : α → Bool) (x : α) (hx : q x = true) :
    ∀ l : List α, l.find? q = none → (l ++ [x]).find? q = some x := by
  intro l
  induction l with
  | nil => intro _; simp [List.find?, hx]
  | cons a l ih =>
    intro h
    cases ha : q a with
    | true =>
      rw [List.find?_cons_of_pos _ ha] at h
      exact absurd h (by simp)
    | false =>
      rw [List.find?_cons_of_neg _ (by simp [ha])] at h
      rw [List.cons_append, List.find?_cons_of_neg _ (by simp [ha])]
      exact ih h

theorem filter_length_split {α : Type} (p : α → Bool) :
    ∀ l : List α, (l.filter p).length + (l.filter (fun a => !(p a))).length = l.length := by
  intro l
  induction l with
  | nil => rfl
  | cons a l ih =>
    cases ha : p a <;> simp [List.filter_cons, ha] <;> omega

/-! ## DAO-level lemmas -/

theorem incr_get_self_none (db : DBState) (today p : String)
    (cc tin tout : Nat) (cost : Rat) (td : Option String)
    (h : get_daily_usage db (td.getD today) p = none) :
    get_daily_usage (increment_usage_stats db today p cc tin tout cost td)
        (td.getD today) p =
      some { date := td.getD today, provider := p, request_count := 1,
             char_count := cc, token_input := tin, token_output := tout,
             cost_estimated := cost } := by
  simp only [increment_usage_stats, h]
  simp only [get_daily_usage] at h ⊢
  exact find?_append_found _ _ (by simp) _ h

theorem incr_get_self_some (db : DBState) (today p : String)
    (cc tin tout : Nat) (cost : Rat) (td : Option String) (u : DailyUsageStats)
    (h : get_daily_usage db (td.getD today) p = some u) :
    get_daily_usage (increment_usage_stats db today p cc tin tout cost td)
        (td.getD today) p =
      some { u with
             request_count := u.request_count + 1,
             char_count := u.char_count + cc,
             token_input := u.token_input + tin,
             token_output := u.token_output + tout,
             cost_estimated := u.cost_estimated + cost } := by
  simp only [increment_usage_stats, h]
  simp only [get_daily_usage] at h ⊢
  refine Eq.trans (find?_map_pointwise _ _ ?_ _) ?_
  · intro r
    by_cases hr : (r.date == td.getD today && r.provider == p) = true <;> simp [hr]
  · rw [h]
    have hu := List.find?_some h
    exact congrArg some (if_pos hu)

theorem incr_get_frame (db : DBState) (today p : String)
    (cc tin tout : Nat) (cost : Rat) (td : Option String) (d' p' : String)
    (h : ¬(d' = td.getD today ∧ p' = p)) :
    get_daily_usage (increment_usage_stats db today p cc tin tout cost td) d' p' =
      get_daily_usage db d' p' := by
  have hkey : ∀ r : DailyUsageStats, (r.date == d' && r.provider == p') = true →
      (r.date == td.getD today && r.provider == p) = false := by
    intro r hr
    simp only [Bool.and_eq_true, beq_iff_eq] at hr
    simp only [Bool.and_eq_false_iff, beq_eq_false_iff_ne]
    by_cases hd : r.date = td.getD today
    · right; intro hp; exact h ⟨hr.1 ▸ hd, hr.2 ▸ hp⟩
    · left; exact hd
  cases hu : get_daily_usage db (td.getD today) p with
  | none =>
    simp only [increment_usage_stats, hu]
    simp only [get_daily_usage]
    refine find?_append_right_none _ _ ?_ _
    simp only [Bool.and_eq_false_iff, beq_eq_false_iff_ne]
    by_cases hd : d' = td.getD today
    · right; intro hp; exact h ⟨hd, hp.symm⟩
    · left; intro hd'; exact hd hd'.symm
  | some u =>
    simp only [increment_usage_stats, hu]
    simp only [get_daily_usage]
    refine find?_map_disjoint _ _ ?_ ?_ _
    · intro r
      by_cases hr : (r.date == td.getD today && r.provider == p) = true <;> simp [hr]
    · intro r hr
      have hf := hkey r hr
      simp [hf]

theorem upsert_conflict_found (db : DBState) (now : Int)
    (k sl tl ot tt p : String) (ir : Bool) (rm : Option String)
    (ea : Option Int) (old : CachedTranslation)
    (h : find_translation db k = some old) :
    find_translation (upsert_translation db now k sl tl ot tt p ir rm ea) k =
      some { old with
             translated_text := tt, provider := p, is_refined := ir,
             refinement_model := rm, last_accessed_at := now } := by
  simp only [upsert_translation, h]
  simp only [find_translation] at h ⊢
  refine Eq.trans (find?_map_pointwise _ _ ?_ _) ?_
  · intro r
    by_cases hr : (r.cache_key == k) = true <;> simp [hr]
  · rw [h]
    have hk := List.find?_some h
    exact congrArg some (if_pos hk)

theorem upsert_insert_found (db : DBState) (now : Int)
    (k sl tl ot tt p : String) (ir : Bool) (rm : Option String)
    (ea : Option Int) (h : find_translation db k = none) :
    find_translation (upsert_translation db now k sl tl ot tt p ir rm ea) k =
      some { cache_key := k, source_lang := sl, target_lang := tl,
             original_text := ot, translated_text := tt, provider := p,
             is_refined := ir, refinement_model := rm, char_count := ot.length,
             created_at := now, last_accessed_at := now, expires_at := ea } := by
  simp only [upsert_translation, h]
  simp only [find_translation] at h ⊢
  exact find?_append_found _ _ (by simp) _ h

theorem upsert_frame (db : DBState) (now : Int)
    (k sl tl ot tt p : String) (ir : Bool) (rm : Option String)
    (ea : Option Int) (k' : String) (hk : k' ≠ k) :
    find_translation (upsert_translation db now k sl tl ot tt p ir rm ea) k' =
      find_translation db k' := by
  cases hf : find_translation db k with
  | none =>
    simp only [upsert_translation, hf]
    simp only [find_translation]
    refine find?_append_right_none _ _ ?_ _
    simp only [beq_eq_false_iff_ne]
    exact fun hc => hk hc.symm
  | some old =>
    simp only [upsert_translation, hf]
    simp only [find_translation]
    refine find?_map_disjoint _ _ ?_ ?_ _
    · intro r
      by_cases hr : (r.cache_key == k) = true <;> simp [hr]
    · intro r hr
      rw [beq_iff_eq] at hr
      have : (r.cache_key == k) = false := by
        simp only [beq_eq_false_iff_ne]
        rw [hr]; exact hk
      simp [this]

theorem touch_pointwise (db : DBState) (now : Int) (k : String) :
    find_translation (update_last_accessed db now k) k =
      (find_translation db k).map (fun r => { r with last_accessed_at := now }) := by
  simp only [update_last_accessed, find_translation]
  refine Eq.trans (find?_map_pointwise _ _ ?_ _) ?_
  · intro r
    by_cases hr : (r.cache_key == k) = true <;> simp [hr]
  · cases hf : List.find? (fun r => r.cache_key == k) db.translations with
    | none => rfl
    | some r =>
      have hk := List.find?_some hf
      exact congrArg some (if_pos hk)

theorem touch_frame (db : DBState) (now : Int) (k k' : String) (hk : k' ≠ k) :
    find_translation (update_last_accessed db now k) k' = find_translation db k' := by
  simp only [update_last_accessed, find_translation]
  refine find?_map_disjoint _ _ ?_ ?_ _
  · intro r
    by_cases hr : (r.cache_key == k) = true <;> simp [hr]
  · intro r hr
    rw [beq_iff_eq] at hr
    have : (r.cache_key == k) = false := by
      simp only [beq_eq_false_iff_ne]
      rw [hr]; exact hk
    simp [this]

theorem get_cached_some_find (db : DBState) (now : Int) (k : String)
    (c : CachedTranslation) (huniq : uniqueKeys db)
    (h : get_cached_translation db now k = some c) :
    find_translation db k = some c := by
  have hc_mem : c ∈ db.translations := List.mem_of_find?_eq_some h
  have hc_pred := List.find?_some h
  have hc_key : (c.cache_key == k) = true := by
    cases hck : (c.cache_key == k) with
    | true => rfl
    | false => rw [hck] at hc_pred; simp at hc_pred
  have hsome : (find_translation db k).isSome := by
    unfold find_translation
    exact List.find?_isSome.mpr ⟨c, hc_mem, hc_key⟩
  obtain ⟨r, hr⟩ := Option.isSome_iff_exists.mp hsome
  have hr_mem : r ∈ db.translations := List.mem_of_find?_eq_some hr
  have hr_key := List.find?_some hr
  rw [beq_iff_eq] at hr_key hc_key
  rw [hr, huniq r hr_mem c hc_mem (by rw [hr_key, hc_key])]

/-! ## Claims C6-C9: DAO contracts -/

/-- Claim C6: increment_usage_stats is an upsert (atomic in this embedding,
being one state transition): with no row for (date, provider) it inserts
request_count = 1 with exactly the supplied deltas; with a row it adds each
delta and bumps request_count by one; other (date, provider) rows are
untouched, so a get_daily_usage right after returns exactly the
accumulated values. -/
theorem C6_increment_usage_upsert (db : DBState) (today d p : String)
    (cc tin tout : Nat) (cost : Rat) (hcost : 0 ≤ cost) :
    (get_daily_usage db d p = none →
      get_daily_usage (increment_usage_stats db today p cc tin tout cost (some d)) d p =
        some { date := d, provider := p, request_count := 1, char_count := cc,
               token_input := tin, token_output := tout, cost_estimated := cost })
    ∧ (∀ u, get_daily_usage db d p = some u →
      get_daily_usage (increment_usage_stats db today p cc tin tout cost (some d)) d p =
        some { u with
               request_count := u.request_count + 1,
               char_count := u.char_count + cc,
               token_input := u.token_input + tin,
               token_output := u.token_output + tout,
               cost_estimated := u.cost_estimated + cost })
    ∧ (∀ d' p', ¬(d' = d ∧ p' = p) →
      get_daily_usage (increment_usage_stats db today p cc tin tout cost (some d)) d' p' =
        get_daily_usage db d' p') := by
  refine ⟨?_, ?_, ?_⟩
  · intro h
    exact incr_get_self_none db today p cc tin tout cost (some d) h
  · intro u h
    exact incr_get_self_some db today p cc tin tout cost (some d) u h
  · intro d' p' h
    exact incr_get_frame db today p cc tin tout cost (some d) d' p' h

/-- Claim C6 witness: a concrete increment over an existing row accumulates
exactly. -/
theorem C6_increment_usage_upsert_witness :
    (0 : Rat) ≤ 1 ∧
    get_daily_usage (increment_usage_stats
        ⟨[], [⟨"2026-02-03", "deepl", 2, 10, 1, 2, 3⟩]⟩
        "2026-02-03" "deepl" 5 1 1 1 (some "2026-02-03")) "2026-02-03" "deepl" =
      some ⟨"2026-02-03", "deepl", 3, 15, 2, 3, 4⟩ :=
  by
  refine ⟨by norm_num, ?_⟩
  have h := (C6_increment_usage_upsert ⟨[], [⟨"2026-02-03", "deepl", 2, 10, 1, 2, 3⟩]⟩
    "2026-02-03" "2026-02-03" "deepl" 5 1 1 1 (by norm_num)).2.1
    ⟨"2026-02-03", "deepl", 2, 10, 1, 2, 3⟩ (by decide)
  norm_num at h
  exact h

/-- Claim C7 counterexample: at now = 10, an upsert colliding on key k1
lands in the ON CONFLICT branch, which overwrites the draft and
last-accessed-at yet leaves created_at = 5 untouched — so the overwrite
variant used by the pipeline preserves created-at on update, refuting the
claim that created-at is preserved on update only when an explicit
insert-only variant is used (the DAO has no such variant). -/
theorem C7_counterexample :
    (find_translation (upsert_translation ⟨[rowK], []⟩ 10 "k1" "en" "fr" "hi"
        "SALUT" "google" true (some "gpt-4o-mini") none) "k1").map
      (fun r => (r.created_at, r.last_accessed_at, r.translated_text, r.provider)) =
      some (5, 10, "SALUT", "google") := by decide

/-- Claim C7 as amended: on a key collision upsert_translation overwrites
exactly the translated text, provider, refined flag and refinement model
and sets last-accessed-at to now, leaving source language, target
language, original text, character count, expires-at and also created-at
unchanged; rows under other keys are untouched. -/
theorem C7_upsert_collision (db : DBState) (now : Int)
    (k sl tl ot tt p : String) (ir : Bool) (rm : Option String)
    (ea : Option Int) (old : CachedTranslation)
    (hold : find_translation db k = some old) :
    find_translation (upsert_translation db now k sl tl ot tt p ir rm ea) k =
      some { old with
             translated_text := tt, provider := p, is_refined := ir,
             refinement_model := rm, last_accessed_at := now }
    ∧ (∀ k', k' ≠ k →
        find_translation (upsert_translation db now k sl tl ot tt p ir rm ea) k' =
          find_translation db k') :=
  ⟨upsert_conflict_found db now k sl tl ot tt p ir rm ea old hold,
   fun k' hk => upsert_frame db now k sl tl ot tt p ir rm ea k' hk⟩

/-- Claim C7 witness: the amended contract at a concrete collision. -/
theorem C7_upsert_collision_witness :
    find_translation ⟨[rowK], []⟩ "k1" = some rowK ∧
    find_translation (upsert_translation ⟨[rowK], []⟩ 10 "k1" "en" "fr" "hi"
        "SALUT" "google" true (some "gpt-4o-mini") none) "k1" =
      some { rowK with
             translated_text := "SALUT", provider := "google", is_refined := true,
             refinement_model := some "gpt-4o-mini", last_accessed_at := 10 } :=
  ⟨by decide,
   (C7_upsert_collision ⟨[rowK], []⟩ 10 "k1" "en" "fr" "hi" "SALUT" "google"
      true (some "gpt-4o-mini") none rowK (by decide)).1⟩

/-- Claim C8 counterexample: delete_expired_entries with days = 0 at
now = 5 does not delete a row whose last_accessed_at equals now (the SQL
comparison is strict), so delete_expired(0) does not delete all rows. -/
theorem C8_counterexample :
    (delete_expired_entries ⟨[rowK], []⟩ 5 0).1.translations = [rowK] ∧
    (delete_expired_entries ⟨[rowK], []⟩ 5 0).2 = 0 := by decide

/-- Claim C8 as amended: for every non-negative days, delete_expired_entries
deletes exactly the rows whose last-accessed-at is strictly older than
now minus days and returns their count; in particular delete_expired(0)
deletes exactly the rows strictly older than now, and a row last accessed
at the current instant survives. -/
theorem C8_delete_expired (db : DBState) (now : Int) (days_old : Nat) :
    (∀ r ∈ db.translations,
      (r ∈ (delete_expired_entries db now days_old).1.translations ↔
        ¬(r.last_accessed_at < now - (days_old : Int) * 86400)))
    ∧ (∀ r ∈ (delete_expired_entries db now days_old).1.translations,
        r ∈ db.translations)
    ∧ (delete_expired_entries db now days_old).2 +
        (delete_expired_entries db now days_old).1.translations.length =
          db.translations.length
    ∧ (delete_expired_entries db now days_old).2 =
        (db.translations.filter
          (fun r => decide (r.last_accessed_at < now - (days_old : Int) * 86400))).length := by
  refine ⟨?_, ?_, ?_, rfl⟩
  · intro r hr
    simp [delete_expired_entries, List.mem_filter, hr]
  · intro r hr
    simp only [delete_expired_entries] at hr
    exact (List.mem_filter.mp hr).1
  · exact filter_length_split _ _

/-- Claim C8 witness: the amended contract at a concrete table. -/
theorem C8_delete_expired_witness :
    rowK ∈ (delete_expired_entries ⟨[rowK], []⟩ 5 0).1.translations ↔
      ¬(rowK.last_accessed_at < 5 - (0 : Int) * 86400) :=
  (C8_delete_expired ⟨[rowK], []⟩ 5 0).1 rowK (by decide)

/-- Claim C9: writing over a key whose stored row has a past expires_at
takes the conflict branch, which leaves expires_at untouched; hence the
freshly written translation stays invisible to get_cached_translation at
the write instant and at every later instant. -/
theorem C9_expired_key_stays_invisible (db : DBState) (now : Int)
    (k sl tl ot tt p : String) (ir : Bool) (rm : Option String)
    (ea : Option Int) (old : CachedTranslation) (e : Int)
    (huniq : uniqueKeys db)
    (hold : find_translation db k = some old)
    (hexp : old.expires_at = some e) (hlt : e < now) :
    find_translation (upsert_translation db now k sl tl ot tt p ir rm ea) k =
      some { old with
             translated_text := tt, provider := p, is_refined := ir,
             refinement_model := rm, last_accessed_at := now }
    ∧ (∀ now', now ≤ now' →
        get_cached_translation (upsert_translation db now k sl tl ot tt p ir rm ea)
          now' k = none) := by
  have hold_mem : old ∈ db.translations := List.mem_of_find?_eq_some hold
  have hold_key : old.cache_key = k := by
    have := List.find?_some hold
    rwa [beq_iff_eq] at this
  refine ⟨upsert_conflict_found db now k sl tl ot tt p ir rm ea old hold, ?_⟩
  intro now' hnow
  simp only [upsert_translation, hold]
  simp only [get_cached_translation]
  rw [List.find?_eq_none]
  intro x hx
  rw [List.mem_map] at hx
  obtain ⟨r, hr_mem, rfl⟩ := hx
  by_cases hrk : r.cache_key = k
  · have hre : r = old := huniq r hr_mem old hold_mem (by rw [hrk, hold_key])
    subst hre
    rw [if_pos (by rw [beq_iff_eq]; exact hrk)]
    simp only [Bool.and_eq_true, beq_iff_eq, hexp]
    intro hcontra
    have : now' < e := by
      have := hcontra.2
      simpa using this
    omega
  · rw [if_neg (by rw [beq_iff_eq]; exact hrk)]
    simp only [Bool.and_eq_true, beq_iff_eq]
    intro hcontra
    exact hrk hcontra.1

/-- Claim C9 witness: a concrete expired row stays invisible after a fresh
successful write over its key. -/
theorem C9_expired_key_stays_invisible_witness :
    uniqueKeys ⟨[rowE], []⟩ ∧
    find_translation ⟨[rowE], []⟩ "k2" = some rowE ∧
    rowE.expires_at = some 50 ∧ (50 : Int) < 100 ∧ (100 : Int) ≤ 100 ∧
    get_cached_translation (upsert_translation ⟨[rowE], []⟩ 100 "k2" "en" "fr"
        "hi" "NEW" "google" false none none) 100 "k2" = none :=
  ⟨by decide, by decide, by decide, by decide, by decide,
   (C9_expired_key_stays_invisible ⟨[rowE], []⟩ 100 "k2" "en" "fr" "hi" "NEW"
      "google" false none none rowE 50 (by decide) (by decide) (by decide)
      (by decide)).2 100 (by decide)⟩

theorem filter_map_id {α : Type} (q : α → Bool) (f : α → α)
    (hq : ∀ r, q (f r) = q r) (hid : ∀ r, q r = true → f r = r) :
    ∀ l : List α, (l.map f).filter q = l.filter q := by
  intro l
  induction l with
  | nil => rfl
  | cons a l ih =>
    cases ha : q a with
    | true =>
      rw [List.map_cons, List.filter_cons_of_pos (by rw [hq a]; exact ha),
        List.filter_cons_of_pos ha, hid a ha, ih]
    | false =>
      rw [List.map_cons, List.filter_cons_of_neg (by simp [hq a, ha]),
        List.filter_cons_of_neg (by simp [ha]), ih]

theorem incr_translations (db : DBState) (today p : String)
    (cc tin tout : Nat) (cost : Rat) (td : Option String) :
    (increment_usage_stats db today p cc tin tout cost td).translations =
      db.translations := by
  cases h : get_daily_usage db (td.getD today) p <;>
    simp [increment_usage_stats, h]

theorem upsert_usage (db : DBState) (now : Int)
    (k sl tl ot tt p : String) (ir : Bool) (rm : Option String)
    (ea : Option Int) :
    (upsert_translation db now k sl tl ot tt p ir rm ea).usage = db.usage := by
  cases h : find_translation db k <;> simp [upsert_translation, h]

theorem touch_usage (db : DBState) (now : Int) (k : String) :
    (update_last_accessed db now k).usage = db.usage := rfl

theorem incr_cache_filter (db : DBState) (today p : String)
    (cc tin tout : Nat) (cost : Rat) (td : Option String) (hp : p ≠ "cache") :
    (increment_usage_stats db today p cc tin tout cost td).usage.filter
        (fun r => r.provider == "cache") =
      db.usage.filter (fun r => r.provider == "cache") := by
  cases h : get_daily_usage db (td.getD today) p with
  | none =>
    simp only [increment_usage_stats, h]
    rw [List.filter_append]
    have : (fun r : DailyUsageStats => r.provider == "cache")
        ⟨td.getD today, p, 1, cc, tin, tout, cost⟩ = false := by
      simp only [beq_eq_false_iff_ne]
      exact hp
    simp [List.filter_cons, this]
  | some u =>
    simp only [increment_usage_stats, h]
    refine filter_map_id _ _ ?_ ?_ _
    · intro r
      by_cases hr : (r.date == td.getD today && r.provider == p) = true <;> simp [hr]
    · intro r hr
      rw [beq_iff_eq] at hr
      have : (r.date == td.getD today && r.provider == p) = false := by
        simp only [Bool.and_eq_false_iff, beq_eq_false_iff_ne]
        right; rw [hr]; exact fun hc => hp hc.symm
      simp [this]

theorem incr_cache_get (db : DBState) (today p : String)
    (cc tin tout : Nat) (cost : Rat) (td : Option String) (hp : p ≠ "cache")
    (d : String) :
    get_daily_usage (increment_usage_stats db today p cc tin tout cost td) d "cache" =
      get_daily_usage db d "cache" := by
  refine incr_get_frame db today p cc tin tout cost td d "cache" ?_
  rintro ⟨-, hc⟩
  exact hp hc.symm

theorem record_usage_translations (s : SysState) (p : String)
    (cc tin tout : Nat) (cost : Rat) :
    (record_usage s p cc tin tout cost).db.translations = s.db.translations :=
  incr_translations s.db s.today (strToLower p) cc tin tout cost none

theorem record_usage_budget (st : Settings) (s : SysState) (p : String)
    (cc tin tout : Nat) (cost : Rat)
    (h1 : strToLower p ≠ "openai_trans") (h2 : strToLower p ≠ "openai_refine") :
    is_openai_budget_exceeded st (record_usage s p cc tin tout cost) =
      is_openai_budget_exceeded st s := by
  have e1 := incr_get_frame s.db s.today (strToLower p) cc tin tout cost none
    s.today "openai_trans" (by rintro ⟨-, hc⟩; exact h1 hc.symm)
  have e2 := incr_get_frame s.db s.today (strToLower p) cc tin tout cost none
    s.today "openai_refine" (by rintro ⟨-, hc⟩; exact h2 hc.symm)
  simp only [is_openai_budget_exceeded, get_total_openai_cost, record_usage, e1, e2]

theorem record_usage_cache_get (s : SysState) (p : String)
    (cc tin tout : Nat) (cost : Rat) (hp : strToLower p ≠ "cache") (d : String) :
    get_daily_usage (record_usage s p cc tin tout cost).db d "cache" =
      get_daily_usage s.db d "cache" :=
  incr_cache_get s.db s.today (strToLower p) cc tin tout cost none hp d

theorem record_usage_cache_filter (s : SysState) (p : String)
    (cc tin tout : Nat) (cost : Rat) (hp : strToLower p ≠ "cache") :
    (record_usage s p cc tin tout cost).db.usage.filter
        (fun r => r.provider == "cache") =
      s.db.usage.filter (fun r => r.provider == "cache") :=
  incr_cache_filter s.db s.today (strToLower p) cc tin tout cost none hp

/-! Exhaustive case descriptions of the three tiers and of refinement. -/

theorem deepl_tier_cases (b : Backends) (s : SysState) :
    deepl_tier b s = (none, s, []) ∨
    (∃ r, b.deepl_outcome = TranslateOutcome.ok r ∧
      deepl_tier b s = (some (r, "deepl"), record_usage s "deepl" r.char_count 0 0 0,
        [Event.translateCall "deepl", Event.usageRecord "deepl"])) ∨
    deepl_tier b s = (none, set_quota_exceeded s "deepl", [Event.translateCall "deepl"]) ∨
    deepl_tier b s = (none, s, [Event.translateCall "deepl"]) := by
  unfold deepl_tier
  cases hq : is_quota_exceeded s "deepl" <;> cases ha : b.deepl_available <;>
    cases ho : b.deepl_outcome <;> simp [hq, ha, ho]

theorem openai_tier_cases (st : Settings) (b : Backends) (s : SysState) :
    openai_tier st b s = (none, s, []) ∨
    (∃ r, b.openai_outcome = TranslateOutcome.ok r ∧
      openai_tier st b s = (some (r, "openai"),
        record_usage s "openai_trans" 0 r.token_input r.token_output r.cost_estimated,
        [Event.translateCall "openai", Event.usageRecord "openai_trans"])) ∨
    openai_tier st b s = (none, s, [Event.translateCall "openai"]) := by
  unfold openai_tier
  cases hq : is_openai_budget_exceeded st s <;> cases ha : b.openai_available <;>
    cases ho : b.openai_outcome <;> simp [hq, ha, ho]

theorem google_tier_cases (st : Settings) (b : Backends) (s : SysState) :
    google_tier st b s = (none, s, []) ∨
    (∃ r, b.google_outcome = TranslateOutcome.ok r ∧
      google_tier st b s = (some (r, "google"),
        record_usage s "google" r.char_count 0 0 r.cost_estimated,
        [Event.translateCall "google", Event.usageRecord "google"])) ∨
    google_tier st b s = (none, s, [Event.translateCall "google"]) := by
  unfold google_tier
  cases hq : is_budget_exceeded st s "google" <;> cases ha : b.google_available <;>
    cases ho : b.google_outcome <;> simp [hq, ha, ho]

theorem try_refinement_cases (st : Settings) (b : Backends) (s : SysState) :
    try_refinement st b s = (none, s, []) ∨
    (∃ r, b.openai_refine_outcome = RefineOutcome.ok r ∧
      try_refinement st b s = (some r,
        record_usage s "openai_refine" 0 r.token_input r.token_output r.cost_estimated,
        [Event.refineCall, Event.usageRecord "openai_refine"])) ∨
    try_refinement st b s = (none, s, [Event.refineCall]) := by
  unfold try_refinement
  cases hq : is_openai_budget_exceeded st s <;>
    cases ho : b.openai_refine_outcome <;> simp [hq, ho]

theorem deepl_tier_skip (b : Backends) (s : SysState)
    (h : is_quota_exceeded s "deepl" = true) : deepl_tier b s = (none, s, []) := by
  simp [deepl_tier, h]

theorem openai_tier_skip (st : Settings) (b : Backends) (s : SysState)
    (h : is_openai_budget_exceeded st s = true) :
    openai_tier st b s = (none, s, []) := by
  simp [openai_tier, h]

theorem try_refinement_skip (st : Settings) (b : Backends) (s : SysState)
    (h : is_openai_budget_exceeded st s = true) :
    try_refinement st b s = (none, s, []) := by
  simp [try_refinement, h]

theorem deepl_tier_translations (b : Backends) (s : SysState) :
    (deepl_tier b s).2.1.db.translations = s.db.translations := by
  rcases deepl_tier_cases b s with h | ⟨r, -, h⟩ | h | h <;> rw [h] <;>
    first
      | rfl
      | exact record_usage_translations s "deepl" r.char_count 0 0 0

theorem deepl_tier_today (b : Backends) (s : SysState) :
    (deepl_tier b s).2.1.today = s.today := by
  rcases deepl_tier_cases b s with h | ⟨r, -, h⟩ | h | h <;> rw [h] <;> rfl

theorem deepl_tier_now (b : Backends) (s : SysState) :
    (deepl_tier b s).2.1.now = s.now := by
  rcases deepl_tier_cases b s with h | ⟨r, -, h⟩ | h | h <;> rw [h] <;> rfl

theorem deepl_tier_budget (st : Settings) (b : Backends) (s : SysState) :
    is_openai_budget_exceeded st (deepl_tier b s).2.1 =
      is_openai_budget_exceeded st s := by
  rcases deepl_tier_cases b s with h | ⟨r, -, h⟩ | h | h <;> rw [h] <;>
    first
      | rfl
      | exact record_usage_budget st s "deepl" r.char_count 0 0 0 (by decide) (by decide)

theorem deepl_tier_cache_get (b : Backends) (s : SysState) (d : String) :
    get_daily_usage (deepl_tier b s).2.1.db d "cache" =
      get_daily_usage s.db d "cache" := by
  rcases deepl_tier_cases b s with h | ⟨r, -, h⟩ | h | h <;> rw [h] <;>
    first
      | rfl
      | exact record_usage_cache_get s "deepl" r.char_count 0 0 0 (by decide) d

theorem deepl_tier_cache_filter (b : Backends) (s : SysState) :
    (deepl_tier b s).2.1.db.usage.filter (fun r => r.provider == "cache") =
      s.db.usage.filter (fun r => r.provider == "cache") := by
  rcases deepl_tier_cases b s with h | ⟨r, -, h⟩ | h | h <;> rw [h] <;>
    first
      | rfl
      | exact record_usage_cache_filter s "deepl" r.char_count 0 0 0 (by decide)

theorem deepl_tier_mem (b : Backends) (s : SysState) (e : Event)
    (he : e ∈ (deepl_tier b s).2.2) :
    e = Event.translateCall "deepl" ∨ e = Event.usageRecord "deepl" := by
  rcases deepl_tier_cases b s with h | ⟨r, -, h⟩ | h | h <;> rw [h] at he <;>
    simp at he <;> tauto

theorem openai_tier_translations (st : Settings) (b : Backends) (s : SysState) :
    (openai_tier st b s).2.1.db.translations = s.db.translations := by
  rcases openai_tier_cases st b s with h | ⟨r, -, h⟩ | h <;> rw [h] <;>
    first
      | rfl
      | exact record_usage_translations s "openai_trans" 0 r.token_input r.token_output r.cost_estimated

theorem openai_tier_today (st : Settings) (b : Backends) (s : SysState) :
    (openai_tier st b s).2.1.today = s.today := by
  rcases openai_tier_cases st b s with h | ⟨r, -, h⟩ | h <;> rw [h] <;> rfl

theorem openai_tier_now (st : Settings) (b : Backends) (s : SysState) :
    (openai_tier st b s).2.1.now = s.now := by
  rcases openai_tier_cases st b s with h | ⟨r, -, h⟩ | h <;> rw [h] <;> rfl

theorem openai_tier_cache_get (st : Settings) (b : Backends) (s : SysState) (d : String) :
    get_daily_usage (openai_tier st b s).2.1.db d "cache" =
      get_daily_usage s.db d "cache" := by
  rcases openai_tier_cases st b s with h | ⟨r, -, h⟩ | h <;> rw [h] <;>
    first
      | rfl
      | exact record_usage_cache_get s "openai_trans" 0 r.token_input r.token_output r.cost_estimated (by decide) d

theorem openai_tier_cache_filter (st : Settings) (b : Backends) (s : SysState) :
    (openai_tier st b s).2.1.db.usage.filter (fun r => r.provider == "cache") =
      s.db.usage.filter (fun r => r.provider == "cache") := by
  rcases openai_tier_cases st b s with h | ⟨r, -, h⟩ | h <;> rw [h] <;>
    first
      | rfl
      | exact record_usage_cache_filter s "openai_trans" 0 r.token_input r.token_output r.cost_estimated (by decide)

theorem openai_tier_mem (st : Settings) (b : Backends) (s : SysState) (e : Event)
    (he : e ∈ (openai_tier st b s).2.2) :
    e = Event.translateCall "openai" ∨ e = Event.usageRecord "openai_trans" := by
  rcases openai_tier_cases st b s with h | ⟨r, -, h⟩ | h <;> rw [h] at he <;>
    simp at he <;> tauto

theorem google_tier_translations (st : Settings) (b : Backends) (s : SysState) :
    (google_tier st b s).2.1.db.translations = s.db.translations := by
  rcases google_tier_cases st b s with h | ⟨r, -, h⟩ | h <;> rw [h] <;>
    first
      | rfl
      | exact record_usage_translations s "google" r.char_count 0 0 r.cost_estimated

theorem google_tier_today (st : Settings) (b : Backends) (s : SysState) :
    (google_tier st b s).2.1.today = s.today := by
  rcases google_tier_cases st b s with h | ⟨r, -, h⟩ | h <;> rw [h] <;> rfl

theorem google_tier_now (st : Settings) (b : Backends) (s : SysState) :
    (google_tier st b s).2.1.now = s.now := by
  rcases google_tier_cases st b s with h | ⟨r, -, h⟩ | h <;> rw [h] <;> rfl

theorem google_tier_budget (st : Settings) (b : Backends) (s : SysState) :
    is_openai_budget_exceeded st (google_tier st b s).2.1 =
      is_openai_budget_exceeded st s := by
  rcases google_tier_cases st b s with h | ⟨r, -, h⟩ | h <;> rw [h] <;>
    first
      | rfl
      | exact record_usage_budget st s "google" r.char_count 0 0 r.cost_estimated
          (by decide) (by decide)

theorem google_tier_cache_get (st : Settings) (b : Backends) (s : SysState) (d : String) :
    get_daily_usage (google_tier st b s).2.1.db d "cache" =
      get_daily_usage s.db d "cache" := by
  rcases google_tier_cases st b s with h | ⟨r, -, h⟩ | h <;> rw [h] <;>
    first
      | rfl
      | exact record_usage_cache_get s "google" r.char_count 0 0 r.cost_estimated
          (by decide) d

theorem google_tier_cache_filter (st : Settings) (b : Backends) (s : SysState) :
    (google_tier st b s).2.1.db.usage.filter (fun r => r.provider == "cache") =
      s.db.usage.filter (fun r => r.provider == "cache") := by
  rcases google_tier_cases st b s with h | ⟨r, -, h⟩ | h <;> rw [h] <;>
    first
      | rfl
      | exact record_usage_cache_filter s "google" r.char_count 0 0 r.cost_estimated
          (by decide)

theorem google_tier_mem (st : Settings) (b : Backends) (s : SysState) (e : Event)
    (he : e ∈ (google_tier st b s).2.2) :
    e = Event.translateCall "google" ∨ e = Event.usageRecord "google" := by
  rcases google_tier_cases st b s with h | ⟨r, -, h⟩ | h <;> rw [h] at he <;>
    simp at he <;> tauto

theorem try_refinement_translations (st : Settings) (b : Backends) (s : SysState) :
    (try_refinement st b s).2.1.db.translations = s.db.translations := by
  rcases try_refinement_cases st b s with h | ⟨r, -, h⟩ | h <;> rw [h] <;>
    first
      | rfl
      | exact record_usage_translations s "openai_refine" 0 r.token_input
          r.token_output r.cost_estimated

theorem try_refinement_today (st : Settings) (b : Backends) (s : SysState) :
    (try_refinement st b s).2.1.today = s.today := by
  rcases try_refinement_cases st b s with h | ⟨r, -, h⟩ | h <;> rw [h] <;> rfl

theorem try_refinement_now (st : Settings) (b : Backends) (s : SysState) :
    (try_refinement st b s).2.1.now = s.now := by
  rcases try_refinement_cases st b s with h | ⟨r, -, h⟩ | h <;> rw [h] <;> rfl

theorem try_refinement_cache_get (st : Settings) (b : Backends) (s : SysState) (d : String) :
    get_daily_usage (try_refinement st b s).2.1.db d "cache" =
      get_daily_usage s.db d "cache" := by
  rcases try_refinement_cases st b s with h | ⟨r, -, h⟩ | h <;> rw [h] <;>
    first
      | rfl
      | exact record_usage_cache_get s "openai_refine" 0 r.token_input
          r.token_output r.cost_estimated (by decide) d

theorem try_refinement_cache_filter (st : Settings) (b : Backends) (s : SysState) :
    (try_refinement st b s).2.1.db.usage.filter (fun r => r.provider == "cache") =
      s.db.usage.filter (fun r => r.provider == "cache") := by
  rcases try_refinement_cases st b s with h | ⟨r, -, h⟩ | h <;> rw [h] <;>
    first
      | rfl
      | exact record_usage_cache_filter s "openai_refine" 0 r.token_input
          r.token_output r.cost_estimated (by decide)

theorem try_refinement_mem (st : Settings) (b : Backends) (s : SysState) (e : Event)
    (he : e ∈ (try_refinement st b s).2.2) :
    e = Event.refineCall ∨ e = Event.usageRecord "openai_refine" := by
  rcases try_refinement_cases st b s with h | ⟨r, -, h⟩ | h <;> rw [h] at he <;>
    simp at he <;> tauto

theorem translateCallsOf_append (l1 l2 : List Event) :
    translateCallsOf (l1 ++ l2) = translateCallsOf l1 ++ translateCallsOf l2 :=
  List.filterMap_append _ _ _

theorem deepl_tier_calls (b : Backends) (s : SysState) :
    translateCallsOf (deepl_tier b s).2.2 = [] ∨
    translateCallsOf (deepl_tier b s).2.2 = ["deepl"] := by
  rcases deepl_tier_cases b s with h | ⟨r, -, h⟩ | h | h <;> rw [h] <;>
    simp [translateCallsOf]

theorem openai_tier_calls (st : Settings) (b : Backends) (s : SysState) :
    translateCallsOf (openai_tier st b s).2.2 = [] ∨
    translateCallsOf (openai_tier st b s).2.2 = ["openai"] := by
  rcases openai_tier_cases st b s with h | ⟨r, -, h⟩ | h <;> rw [h] <;>
    simp [translateCallsOf]

theorem google_tier_calls (st : Settings) (b : Backends) (s : SysState) :
    translateCallsOf (google_tier st b s).2.2 = [] ∨
    translateCallsOf (google_tier st b s).2.2 = ["google"] := by
  rcases google_tier_cases st b s with h | ⟨r, -, h⟩ | h <;> rw [h] <;>
    simp [translateCallsOf]

theorem chain_translations (st : Settings) (b : Backends) (s : SysState) :
    (execute_translation_chain st b s).2.1.db.translations = s.db.translations := by
  have h1 := deepl_tier_translations b s
  rcases hd : deepl_tier b s with ⟨rd, sd, evd⟩
  rw [hd] at h1
  cases rd with
  | some rp =>
    simp only [execute_translation_chain, hd]
    exact h1
  | none =>
    have h2 := openai_tier_translations st b sd
    rcases ho : openai_tier st b sd with ⟨ro, so, evo⟩
    rw [ho] at h2
    cases ro with
    | some rp =>
      simp only [execute_translation_chain, hd, ho]
      exact h2.trans h1
    | none =>
      have h3 := google_tier_translations st b so
      rcases hg : google_tier st b so with ⟨rg, sg, evg⟩
      rw [hg] at h3
      cases rg with
      | some rp =>
        simp only [execute_translation_chain, hd, ho, hg]
        exact (h3.trans h2).trans h1
      | none =>
        simp only [execute_translation_chain, hd, ho, hg]
        exact (h3.trans h2).trans h1

theorem chain_today (st : Settings) (b : Backends) (s : SysState) :
    (execute_translation_chain st b s).2.1.today = s.today := by
  have h1 := deepl_tier_today b s
  rcases hd : deepl_tier b s with ⟨rd, sd, evd⟩
  rw [hd] at h1
  cases rd with
  | some rp =>
    simp only [execute_translation_chain, hd]
    exact h1
  | none =>
    have h2 := openai_tier_today st b sd
    rcases ho : openai_tier st b sd with ⟨ro, so, evo⟩
    rw [ho] at h2
    cases ro with
    | some rp =>
      simp only [execute_translation_chain, hd, ho]
      exact h2.trans h1
    | none =>
      have h3 := google_tier_today st b so
      rcases hg : google_tier st b so with ⟨rg, sg, evg⟩
      rw [hg] at h3
      cases rg with
      | some rp =>
        simp only [execute_translation_chain, hd, ho, hg]
        exact (h3.trans h2).trans h1
      | none =>
        simp only [execute_translation_chain, hd, ho, hg]
        exact (h3.trans h2).trans h1

theorem chain_now (st : Settings) (b : Backends) (s : SysState) :
    (execute_translation_chain st b s).2.1.now = s.now := by
  have h1 := deepl_tier_now b s
  rcases hd : deepl_tier b s with ⟨rd, sd, evd⟩
  rw [hd] at h1
  cases rd with
  | some rp =>
    simp only [execute_translation_chain, hd]
    exact h1
  | none =>
    have h2 := openai_tier_now st b sd
    rcases ho : openai_tier st b sd with ⟨ro, so, evo⟩
    rw [ho] at h2
    cases ro with
    | some rp =>
      simp only [execute_translation_chain, hd, ho]
      exact h2.trans h1
    | none =>
      have h3 := google_tier_now st b so
      rcases hg : google_tier st b so with ⟨rg, sg, evg⟩
      rw [hg] at h3
      cases rg with
      | some rp =>
        simp only [execute_translation_chain, hd, ho, hg]
        exact (h3.trans h2).trans h1
      | none =>
        simp only [execute_translation_chain, hd, ho, hg]
        exact (h3.trans h2).trans h1

theorem chain_cache_get (st : Settings) (b : Backends) (s : SysState) (d : String) :
    get_daily_usage (execute_translation_chain st b s).2.1.db d "cache" =
      get_daily_usage s.db d "cache" := by
  have h1 := deepl_tier_cache_get b s d
  rcases hd : deepl_tier b s with ⟨rd, sd, evd⟩
  rw [hd] at h1
  cases rd with
  | some rp =>
    simp only [execute_translation_chain, hd]
    exact h1
  | none =>
    have h2 := openai_tier_cache_get st b sd d
    rcases ho : openai_tier st b sd with ⟨ro, so, evo⟩
    rw [ho] at h2
    cases ro with
    | some rp =>
      simp only [execute_translation_chain, hd, ho]
      exact h2.trans h1
    | none =>
      have h3 := google_tier_cache_get st b so d
      rcases hg : google_tier st b so with ⟨rg, sg, evg⟩
      rw [hg] at h3
      cases rg with
      | some rp =>
        simp only [execute_translation_chain, hd, ho, hg]
        exact (h3.trans h2).trans h1
      | none =>
        simp only [execute_translation_chain, hd, ho, hg]
        exact (h3.trans h2).trans h1

theorem chain_cache_filter (st : Settings) (b : Backends) (s : SysState) :
    (execute_translation_chain st b s).2.1.db.usage.filter
        (fun r => r.provider == "cache") =
      s.db.usage.filter (fun r => r.provider == "cache") := by
  have h1 := deepl_tier_cache_filter b s
  rcases hd : deepl_tier b s with ⟨rd, sd, evd⟩
  rw [hd] at h1
  cases rd with
  | some rp =>
    simp only [execute_translation_chain, hd]
    exact h1
  | none =>
    have h2 := openai_tier_cache_filter st b sd
    rcases ho : openai_tier st b sd with ⟨ro, so, evo⟩
    rw [ho] at h2
    cases ro with
    | some rp =>
      simp only [execute_translation_chain, hd, ho]
      exact h2.trans h1
    | none =>
      have h3 := google_tier_cache_filter st b so
      rcases hg : google_tier st b so with ⟨rg, sg, evg⟩
      rw [hg] at h3
      cases rg with
      | some rp =>
        simp only [execute_translation_chain, hd, ho, hg]
        exact (h3.trans h2).trans h1
      | none =>
        simp only [execute_translation_chain, hd, ho, hg]
        exact (h3.trans h2).trans h1

theorem chain_mem (st : Settings) (b : Backends) (s : SysState) (e : Event)
    (he : e ∈ (execute_translation_chain st b s).2.2) :
    e = Event.translateCall "deepl" ∨ e = Event.usageRecord "deepl" ∨
    e = Event.translateCall "openai" ∨ e = Event.usageRecord "openai_trans" ∨
    e = Event.translateCall "google" ∨ e = Event.usageRecord "google" := by
  rcases hd : deepl_tier b s with ⟨rd, sd, evd⟩
  have hmd : ∀ x ∈ evd,
      x = Event.translateCall "deepl" ∨ x = Event.usageRecord "deepl" :=
    fun x hx => deepl_tier_mem b s x (by rw [hd]; exact hx)
  cases rd with
  | some rp =>
    simp only [execute_translation_chain, hd] at he
    rcases hmd e he with h | h <;> tauto
  | none =>
    rcases ho : openai_tier st b sd with ⟨ro, so, evo⟩
    have hmo : ∀ x ∈ evo,
        x = Event.translateCall "openai" ∨ x = Event.usageRecord "openai_trans" :=
      fun x hx => openai_tier_mem st b sd x (by rw [ho]; exact hx)
    cases ro with
    | some rp =>
      simp only [execute_translation_chain, hd, ho] at he
      rw [List.mem_append] at he
      rcases he with he | he
      · rcases hmd e he with h | h <;> tauto
      · rcases hmo e he with h | h <;> tauto
    | none =>
      rcases hg : google_tier st b so with ⟨rg, sg, evg⟩
      have hmg : ∀ x ∈ evg,
          x = Event.translateCall "google" ∨ x = Event.usageRecord "google" :=
        fun x hx => google_tier_mem st b so x (by rw [hg]; exact hx)
      cases rg with
      | some rp =>
        simp only [execute_translation_chain, hd, ho, hg] at he
        rw [List.mem_append, List.mem_append] at he
        rcases he with (he | he) | he
        · rcases hmd e he with h | h <;> tauto
        · rcases hmo e he with h | h <;> tauto
        · rcases hmg e he with h | h <;> tauto
      | none =>
        simp only [execute_translation_chain, hd, ho, hg] at he
        rw [List.mem_append, List.mem_append] at he
        rcases he with (he | he) | he
        · rcases hmd e he with h | h <;> tauto
        · rcases hmo e he with h | h <;> tauto
        · rcases hmg e he with h | h <;> tauto

theorem chain_calls (st : Settings) (b : Backends) (s : SysState) :
    List.Sublist (translateCallsOf (execute_translation_chain st b s).2.2)
      ["deepl", "openai", "google"] := by
  have hcd := deepl_tier_calls b s
  rcases hd : deepl_tier b s with ⟨rd, sd, evd⟩
  rw [hd] at hcd
  have hcd' : translateCallsOf evd = [] ∨ translateCallsOf evd = ["deepl"] := hcd
  cases rd with
  | some rp =>
    simp only [execute_translation_chain, hd]
    rcases hcd' with h | h <;> rw [h] <;> decide
  | none =>
    have hco := openai_tier_calls st b sd
    rcases ho : openai_tier st b sd with ⟨ro, so, evo⟩
    rw [ho] at hco
    have hco' : translateCallsOf evo = [] ∨ translateCallsOf evo = ["openai"] := hco
    cases ro with
    | some rp =>
      simp only [execute_translation_chain, hd, ho]
      rw [translateCallsOf_append]
      rcases hcd' with h1 | h1 <;> rcases hco' with h2 | h2 <;> rw [h1, h2] <;> decide
    | none =>
      have hcg := google_tier_calls st b so
      rcases hg : google_tier st b so with ⟨rg, sg, evg⟩
      rw [hg] at hcg
      have hcg' : translateCallsOf evg = [] ∨ translateCallsOf evg = ["google"] := hcg
      cases rg with
      | some rp =>
        simp only [execute_translation_chain, hd, ho, hg]
        rw [translateCallsOf_append, translateCallsOf_append]
        rcases hcd' with h1 | h1 <;> rcases hco' with h2 | h2 <;>
          rcases hcg' with h3 | h3 <;> rw [h1, h2, h3] <;> decide
      | none =>
        simp only [execute_translation_chain, hd, ho, hg]
        rw [translateCallsOf_append, translateCallsOf_append]
        rcases hcd' with h1 | h1 <;> rcases hco' with h2 | h2 <;>
          rcases hcg' with h3 | h3 <;> rw [h1, h2, h3] <;> decide

theorem chain_budget (st : Settings) (b : Backends) (s : SysState)
    (hb : is_openai_budget_exceeded st s = true) :
    is_openai_budget_exceeded st (execute_translation_chain st b s).2.1 = true ∧
    Event.translateCall "openai" ∉ (execute_translation_chain st b s).2.2 := by
  have hb1 := (deepl_tier_budget st b s).trans hb
  rcases hd : deepl_tier b s with ⟨rd, sd, evd⟩
  rw [hd] at hb1
  have hb1' : is_openai_budget_exceeded st sd = true := hb1
  have hmd : ∀ x ∈ evd,
      x = Event.translateCall "deepl" ∨ x = Event.usageRecord "deepl" :=
    fun x hx => deepl_tier_mem b s x (by rw [hd]; exact hx)
  have hnd : Event.translateCall "openai" ∉ evd := by
    intro hc
    rcases hmd _ hc with h | h <;> simp at h
  cases rd with
  | some rp =>
    simp only [execute_translation_chain, hd]
    exact ⟨hb1', hnd⟩
  | none =>
    have ho := openai_tier_skip st b sd hb1'
    have hb2 := (google_tier_budget st b sd).trans hb1'
    rcases hg : google_tier st b sd with ⟨rg, sg, evg⟩
    rw [hg] at hb2
    have hb2' : is_openai_budget_exceeded st sg = true := hb2
    have hmg : ∀ x ∈ evg,
        x = Event.translateCall "google" ∨ x = Event.usageRecord "google" :=
      fun x hx => google_tier_mem st b sd x (by rw [hg]; exact hx)
    have hng : Event.translateCall "openai" ∉ evg := by
      intro hc
      rcases hmg _ hc with h | h <;> simp at h
    cases rg with
    | some rp =>
      simp only [execute_translation_chain, hd, ho, hg]
      refine ⟨hb2', ?_⟩
      rw [List.mem_append, List.mem_append]
      rintro ((hc | hc) | hc)
      · exact hnd hc
      · simp at hc
      · exact hng hc
    | none =>
      simp only [execute_translation_chain, hd, ho, hg]
      refine ⟨hb2', ?_⟩
      rw [List.mem_append, List.mem_append]
      rintro ((hc | hc) | hc)
      · exact hnd hc
      · simp at hc
      · exact hng hc

theorem chain_quota (st : Settings) (b : Backends) (s : SysState)
    (hq : is_quota_exceeded s "deepl" = true) :
    Event.translateCall "deepl" ∉ (execute_translation_chain st b s).2.2 := by
  have hd := deepl_tier_skip b s hq
  rcases ho : openai_tier st b s with ⟨ro, so, evo⟩
  have hmo : ∀ x ∈ evo,
      x = Event.translateCall "openai" ∨ x = Event.usageRecord "openai_trans" :=
    fun x hx => openai_tier_mem st b s x (by rw [ho]; exact hx)
  have hno : Event.translateCall "deepl" ∉ evo := by
    intro hc
    rcases hmo _ hc with h | h <;> simp at h
  cases ro with
  | some rp =>
    simp only [execute_translation_chain, hd, ho]
    rw [List.mem_append]
    rintro (hc | hc)
    · simp at hc
    · exact hno hc
  | none =>
    rcases hg : google_tier st b so with ⟨rg, sg, evg⟩
    have hmg : ∀ x ∈ evg,
        x = Event.translateCall "google" ∨ x = Event.usageRecord "google" :=
      fun x hx => google_tier_mem st b so x (by rw [hg]; exact hx)
    have hng : Event.translateCall "deepl" ∉ evg := by
      intro hc
      rcases hmg _ hc with h | h <;> simp at h
    cases rg with
    | some rp =>
      simp only [execute_translation_chain, hd, ho, hg]
      rw [List.mem_append, List.mem_append]
      rintro ((hc | hc) | hc)
      · simp at hc
      · exact hno hc
      · exact hng hc
    | none =>
      simp only [execute_translation_chain, hd, ho, hg]
      rw [List.mem_append, List.mem_append]
      rintro ((hc | hc) | hc)
      · simp at hc
      · exact hno hc
      · exact hng hc

/-! ## run_chain_and_store-level lemmas -/

theorem rcs_failure (st : Settings) (b : Backends) (s : SysState)
    (text sl tl : String) (options : TranslationOptions) (k : String)
    (s1 : SysState) (ev1 : List Event)
    (hchain : execute_translation_chain st b s = (none, s1, ev1)) :
    run_chain_and_store st b s text sl tl options k =
      ({ success := false,
         error := some "All translation providers failed or exceeded budget",
         original_text := some text }, s1, ev1) := by
  simp only [run_chain_and_store, hchain]

theorem rcs_success_norefine (st : Settings) (b : Backends) (s : SysState)
    (text sl tl : String) (options : TranslationOptions) (k : String)
    (r : TranslationResult) (p : String) (s1 : SysState) (ev1 : List Event)
    (hchain : execute_translation_chain st b s = (some (r, p), s1, ev1))
    (hcond : (options.enable_refinement && !(p == "openai")) = false) :
    run_chain_and_store st b s text sl tl options k =
      ({ success := true, text := some r.text, provider := some p,
         is_refined := false, is_cached := false },
       { s1 with
         db := upsert_translation s1.db s1.now k sl tl text r.text p
           false none none },
       ev1 ++ [Event.cacheWrite k]) := by
  simp only [run_chain_and_store, hchain, hcond]
  simp

theorem rcs_success_refine_budget (st : Settings) (b : Backends) (s : SysState)
    (text sl tl : String) (options : TranslationOptions) (k : String)
    (r : TranslationResult) (p : String) (s1 : SysState) (ev1 : List Event)
    (hchain : execute_translation_chain st b s = (some (r, p), s1, ev1))
    (hcond : (options.enable_refinement && !(p == "openai")) = true)
    (hb : is_openai_budget_exceeded st s1 = true) :
    run_chain_and_store st b s text sl tl options k =
      ({ success := true, text := some r.text, provider := some p,
         is_refined := false, is_cached := false },
       { s1 with
         db := upsert_translation s1.db s1.now k sl tl text r.text p
           false none none },
       ev1 ++ [Event.cacheWrite k]) := by
  simp only [run_chain_and_store, hchain, hcond, try_refinement_skip st b s1 hb]
  simp

theorem rcs_success_refine_ok (st : Settings) (b : Backends) (s : SysState)
    (text sl tl : String) (options : TranslationOptions) (k : String)
    (r : TranslationResult) (p : String) (s1 : SysState) (ev1 : List Event)
    (rr : RefinementResult)
    (hchain : execute_translation_chain st b s = (some (r, p), s1, ev1))
    (hcond : (options.enable_refinement && !(p == "openai")) = true)
    (hb : is_openai_budget_exceeded st s1 = false)
    (ho : b.openai_refine_outcome = RefineOutcome.ok rr) :
    run_chain_and_store st b s text sl tl options k =
      ({ success := true, text := some rr.text, provider := some p,
         is_refined := true, is_cached := false },
       { (record_usage s1 "openai_refine" 0 rr.token_input rr.token_output
            rr.cost_estimated) with
         db := upsert_translation
           (record_usage s1 "openai_refine" 0 rr.token_input rr.token_output
             rr.cost_estimated).db
           (record_usage s1 "openai_refine" 0 rr.token_input rr.token_output
             rr.cost_estimated).now
           k sl tl text rr.text p true (some rr.model) none },
       ev1 ++ [Event.refineCall, Event.usageRecord "openai_refine"] ++
         [Event.cacheWrite k]) := by
  have hstep : try_refinement st b s1 =
      (some rr, record_usage s1 "openai_refine" 0 rr.token_input rr.token_output
        rr.cost_estimated,
       [Event.refineCall, Event.usageRecord "openai_refine"]) := by
    simp [try_refinement, hb, ho]
  simp only [run_chain_and_store, hchain, hcond, hstep]
  simp

theorem rcs_success_refine_fail (st : Settings) (b : Backends) (s : SysState)
    (text sl tl : String) (options : TranslationOptions) (k : String)
    (r : TranslationResult) (p : String) (s1 : SysState) (ev1 : List Event)
    (hchain : execute_translation_chain st b s = (some (r, p), s1, ev1))
    (hcond : (options.enable_refinement && !(p == "openai")) = true)
    (hb : is_openai_budget_exceeded st s1 = false)
    (ho : b.openai_refine_outcome = RefineOutcome.refineError) :
    run_chain_and_store st b s text sl tl options k =
      ({ success := true, text := some r.text, provider := some p,
         is_refined := false, is_cached := false },
       { s1 with
         db := upsert_translation s1.db s1.now k sl tl text r.text p
           false none none },
       ev1 ++ [Event.refineCall] ++ [Event.cacheWrite k]) := by
  have hstep : try_refinement st b s1 = (none, s1, [Event.refineCall]) := by
    simp [try_refinement, hb, ho]
  simp only [run_chain_and_store, hchain, hcond, hstep]
  simp

theorem rcs_success_true (st : Settings) (b : Backends) (s : SysState)
    (text sl tl : String) (options : TranslationOptions) (k : String)
    (r : TranslationResult) (p : String) (s1 : SysState) (ev1 : List Event)
    (hchain : execute_translation_chain st b s = (some (r, p), s1, ev1)) :
    (run_chain_and_store st b s text sl tl options k).1.success = true := by
  simp only [run_chain_and_store, hchain]

/-! ## Claims C2-C5 and C10: workflow contracts -/

/-- Claim C2: on a non-expired cache hit with refinement not requested or the
row already refined, the pipeline calls no backend translate, returns
success with the cached text under provider cache with is_cached = true and
is_refined from the row, and the row's last-accessed-at is set to the
current instant, strictly after its previous value. -/
theorem C2_cache_hit_contract (st : Settings) (b : Backends) (s : SysState)
    (text source_lang target_lang : String) (options : TranslationOptions)
    (cached : CachedTranslation)
    (hcache : get_cached_translation s.db s.now
      (generate_cache_key text source_lang target_lang (some options.format_type)) =
      some cached)
    (href : options.enable_refinement = false ∨ cached.is_refined = true)
    (huniq : uniqueKeys s.db)
    (hclock : cached.last_accessed_at < s.now) :
    (TranslationWorkflow.translate st b s text source_lang target_lang options).1 =
      { success := true, text := some cached.translated_text,
        provider := some "cache", is_refined := cached.is_refined,
        is_cached := true }
    ∧ (∀ p, Event.translateCall p ∉
        (TranslationWorkflow.translate st b s text source_lang target_lang options).2.2)
    ∧ (∃ row,
        find_translation
          (TranslationWorkflow.translate st b s text source_lang target_lang options).2.1.db
          (generate_cache_key text source_lang target_lang (some options.format_type)) =
          some row ∧
        row.last_accessed_at = s.now ∧
        cached.last_accessed_at < row.last_accessed_at) := by
  have hcond : (!options.enable_refinement || cached.is_refined) = true := by
    rcases href with h | h <;> simp [h]
  have hred : TranslationWorkflow.translate st b s text source_lang target_lang options =
      ({ success := true, text := some cached.translated_text,
         provider := some "cache", is_refined := cached.is_refined,
         is_cached := true },
       { s with
         db := update_last_accessed s.db s.now
           (generate_cache_key text source_lang target_lang (some options.format_type)) },
       [Event.touch
         (generate_cache_key text source_lang target_lang (some options.format_type))]) := by
    simp only [TranslationWorkflow.translate, hcache, hcond, if_true]
  rw [hred]
  refine ⟨rfl, ?_, ?_⟩
  · intro p hp
    simp at hp
  · have hfind := get_cached_some_find s.db s.now _ cached huniq hcache
    refine ⟨{ cached with last_accessed_at := s.now }, ?_, rfl, hclock⟩
    show find_translation (update_last_accessed s.db s.now _) _ = _
    rw [touch_pointwise, hfind]
    rfl

set_option maxRecDepth 8192 in
/-- Claim C2 witness: the hit contract at a concrete cached row. -/
theorem C2_cache_hit_contract_witness :
    get_cached_translation sHit.db sHit.now
      (generate_cache_key "Hello" "en" "fr" (some optsD.format_type)) = some rowHit ∧
    (optsD.enable_refinement = false ∨ rowHit.is_refined = true) ∧
    uniqueKeys sHit.db ∧
    rowHit.last_accessed_at < sHit.now ∧
    (TranslationWorkflow.translate stD bNone sHit "Hello" "en" "fr" optsD).1 =
      { success := true, text := some rowHit.translated_text,
        provider := some "cache", is_refined := rowHit.is_refined,
        is_cached := true } :=
  ⟨by decide, Or.inl rfl, by decide, by decide,
   (C2_cache_hit_contract stD bNone sHit "Hello" "en" "fr" optsD rowHit
      (by decide) (Or.inl rfl) (by decide) (by decide)).1⟩

/-- Claim C4: translate is a total function of the request, the process
state and the backend outcomes (all backend exceptions are among the
modelled outcomes), so it always returns a structured response; whenever it
reports failure the error is the fixed non-empty all-providers-exhausted
message, the translations table is untouched, and no cache write event was
emitted. -/
theorem C4_translate_never_raises (st : Settings) (b : Backends) (s : SysState)
    (text source_lang target_lang : String) (options : TranslationOptions) :
    (TranslationWorkflow.translate st b s text source_lang target_lang options).1.success = false →
      (TranslationWorkflow.translate st b s text source_lang target_lang options).1.error =
        some "All translation providers failed or exceeded budget" ∧
      "All translation providers failed or exceeded budget" ≠ "" ∧
      (TranslationWorkflow.translate st b s text source_lang target_lang options).2.1.db.translations =
        s.db.translations ∧
      (∀ k, Event.cacheWrite k ∉
        (TranslationWorkflow.translate st b s text source_lang target_lang options).2.2) := by
  intro hfail
  rcases hch : execute_translation_chain st b s with ⟨rc, s1, ev1⟩
  have htr := chain_translations st b s
  rw [hch] at htr
  have hmem : ∀ e ∈ ev1,
      e = Event.translateCall "deepl" ∨ e = Event.usageRecord "deepl" ∨
      e = Event.translateCall "openai" ∨ e = Event.usageRecord "openai_trans" ∨
      e = Event.translateCall "google" ∨ e = Event.usageRecord "google" :=
    fun e he => chain_mem st b s e (by rw [hch]; exact he)
  have hnocw : ∀ k, Event.cacheWrite k ∉ ev1 := by
    intro k hc
    rcases hmem _ hc with h | h | h | h | h | h <;> simp at h
  cases hc : get_cached_translation s.db s.now
      (generate_cache_key text source_lang target_lang (some options.format_type)) with
  | some cached =>
    cases hcond : (!options.enable_refinement || cached.is_refined) with
    | true =>
      rw [show TranslationWorkflow.translate st b s text source_lang target_lang options =
        ({ success := true, text := some cached.translated_text,
           provider := some "cache", is_refined := cached.is_refined,
           is_cached := true },
         { s with
           db := update_last_accessed s.db s.now
             (generate_cache_key text source_lang target_lang (some options.format_type)) },
         [Event.touch
           (generate_cache_key text source_lang target_lang (some options.format_type))])
        from by simp only [TranslationWorkflow.translate, hc, hcond, if_true]] at hfail
      simp at hfail
    | false =>
      have hred : TranslationWorkflow.translate st b s text source_lang target_lang options =
          run_chain_and_store st b s text source_lang target_lang options
            (generate_cache_key text source_lang target_lang (some options.format_type)) := by
        simp only [TranslationWorkflow.translate, hc, hcond]
        simp
      rw [hred] at hfail ⊢
      cases rc with
      | some rp =>
        rw [rcs_success_true st b s text source_lang target_lang options _
          rp.1 rp.2 s1 ev1 (by rw [hch])] at hfail
        exact absurd hfail (by simp)
      | none =>
        rw [rcs_failure st b s text source_lang target_lang options _ s1 ev1 hch]
        refine ⟨rfl, by simp, htr, ?_⟩
        intro k
        exact hnocw k
  | none =>
    have hred : TranslationWorkflow.translate st b s text source_lang target_lang options =
        run_chain_and_store st b s text source_lang target_lang options
          (generate_cache_key text source_lang target_lang (some options.format_type)) := by
      simp only [TranslationWorkflow.translate, hc]
    rw [hred] at hfail ⊢
    cases rc with
    | some rp =>
      rw [rcs_success_true st b s text source_lang target_lang options _
        rp.1 rp.2 s1 ev1 (by rw [hch])] at hfail
      exact absurd hfail (by simp)
    | none =>
      rw [rcs_failure st b s text source_lang target_lang options _ s1 ev1 hch]
      refine ⟨rfl, by simp, htr, ?_⟩
      intro k
      exact hnocw k

set_option maxRecDepth 8192 in
/-- Claim C4 witness: with every backend unavailable the pipeline returns
the structured all-exhausted failure. -/
theorem C4_translate_never_raises_witness :
    (TranslationWorkflow.translate stD bNone s0 "Hello" "en" "fr" optsD).1.success = false ∧
    (TranslationWorkflow.translate stD bNone s0 "Hello" "en" "fr" optsD).1.error =
      some "All translation providers failed or exceeded budget" := by
  have hb : is_openai_budget_exceeded stD s0 = false := by
    apply decide_eq_false
    intro hc
    norm_num [get_total_openai_cost, get_daily_usage, s0, stD] at hc
  have hchain : execute_translation_chain stD bNone s0 = (none, s0, []) := by
    simp [execute_translation_chain, deepl_tier, openai_tier, google_tier, hb,
      bNone, (by decide : is_quota_exceeded s0 "deepl" = false),
      (rfl : is_budget_exceeded stD s0 "google" = false)]
  have hc0 : get_cached_translation s0.db s0.now
      (generate_cache_key "Hello" "en" "fr" (some optsD.format_type)) = none := rfl
  have htr : TranslationWorkflow.translate stD bNone s0 "Hello" "en" "fr" optsD =
      ({ success := false,
         error := some "All translation providers failed or exceeded budget",
         original_text := some "Hello" }, s0, []) := by
    simp only [TranslationWorkflow.translate, hc0]
    exact rcs_failure stD bNone s0 "Hello" "en" "fr" optsD _ s0 [] hchain
  exact ⟨by rw [htr],
    (C4_translate_never_raises stD bNone s0 "Hello" "en" "fr" optsD (by rw [htr])).1⟩

theorem translate_events_cases (st : Settings) (b : Backends) (s : SysState)
    (text source_lang target_lang : String) (options : TranslationOptions) :
    (∃ k, (TranslationWorkflow.translate st b s text source_lang target_lang options).2.2 =
      [Event.touch k]) ∨
    ((TranslationWorkflow.translate st b s text source_lang target_lang options).2.2 =
      (execute_translation_chain st b s).2.2) ∨
    (∃ k evr,
      (TranslationWorkflow.translate st b s text source_lang target_lang options).2.2 =
        (execute_translation_chain st b s).2.2 ++ evr ++ [Event.cacheWrite k] ∧
      (∀ e ∈ evr, e = Event.refineCall ∨ e = Event.usageRecord "openai_refine") ∧
      (is_openai_budget_exceeded st s = true → evr = [])) := by
  rcases hch : execute_translation_chain st b s with ⟨rc, s1, ev1⟩
  cases hc : get_cached_translation s.db s.now
      (generate_cache_key text source_lang target_lang (some options.format_type)) with
  | some cached =>
    cases hcond : (!options.enable_refinement || cached.is_refined) with
    | true =>
      left
      refine ⟨generate_cache_key text source_lang target_lang (some options.format_type), ?_⟩
      simp only [TranslationWorkflow.translate, hc, hcond, if_true]
    | false =>
      have hred : (TranslationWorkflow.translate st b s text source_lang target_lang options).2.2 =
          (run_chain_and_store st b s text source_lang target_lang options
            (generate_cache_key text source_lang target_lang (some options.format_type))).2.2 := by
        simp only [TranslationWorkflow.translate, hc, hcond]
        simp
      rw [hred]
      cases rc with
      | none =>
        right; left
        rw [rcs_failure st b s text source_lang target_lang options _ s1 ev1 hch]
      | some rp =>
        obtain ⟨r, p⟩ := rp
        right; right
        refine ⟨generate_cache_key text source_lang target_lang (some options.format_type),
          (if options.enable_refinement && !(p == "openai") then
            try_refinement st b s1 else (none, s1, [])).2.2, ?_, ?_, ?_⟩
        · simp only [run_chain_and_store, hch]
        · intro e he
          by_cases hcnd : (options.enable_refinement && !(p == "openai")) = true
          · rw [if_pos hcnd] at he
            exact try_refinement_mem st b s1 e he
          · rw [if_neg hcnd] at he
            simp at he
        · intro hb
          have hb1 := (chain_budget st b s hb).1
          rw [hch] at hb1
          have hb1' : is_openai_budget_exceeded st s1 = true := hb1
          by_cases hcnd : (options.enable_refinement && !(p == "openai")) = true
          · rw [if_pos hcnd, try_refinement_skip st b s1 hb1']
          · rw [if_neg hcnd]
  | none =>
    have hred : (TranslationWorkflow.translate st b s text source_lang target_lang options).2.2 =
        (run_chain_and_store st b s text source_lang target_lang options
          (generate_cache_key text source_lang target_lang (some options.format_type))).2.2 := by
      simp only [TranslationWorkflow.translate, hc]
    rw [hred]
    cases rc with
    | none =>
      right; left
      rw [rcs_failure st b s text source_lang target_lang options _ s1 ev1 hch]
    | some rp =>
      obtain ⟨r, p⟩ := rp
      right; right
      refine ⟨generate_cache_key text source_lang target_lang (some options.format_type),
        (if options.enable_refinement && !(p == "openai") then
          try_refinement st b s1 else (none, s1, [])).2.2, ?_, ?_, ?_⟩
      · simp only [run_chain_and_store, hch]
      · intro e he
        by_cases hcnd : (options.enable_refinement && !(p == "openai")) = true
        · rw [if_pos hcnd] at he
          exact try_refinement_mem st b s1 e he
        · rw [if_neg hcnd] at he
          simp at he
      · intro hb
        have hb1 := (chain_budget st b s hb).1
        rw [hch] at hb1
        have hb1' : is_openai_budget_exceeded st s1 = true := hb1
        by_cases hcnd : (options.enable_refinement && !(p == "openai")) = true
        · rw [if_pos hcnd, try_refinement_skip st b s1 hb1']
        · rw [if_neg hcnd]

theorem translateCallsOf_eq_nil (l : List Event)
    (h : ∀ e ∈ l, e = Event.refineCall ∨ e = Event.usageRecord "openai_refine") :
    translateCallsOf l = [] := by
  induction l with
  | nil => rfl
  | cons a l ih =>
    rcases h a (List.mem_cons_self a l) with ha | ha <;> subst ha <;>
      simpa [translateCallsOf] using ih (fun e he => h e (List.mem_cons_of_mem _ he))

/-- Claim C3: in every run, backend translate calls happen only in the fixed
order deepl, openai, google (the call trace is a sublist of that list); with
the deepl quota flag set at request start the deepl backend is never called;
with the combined OpenAI budget exceeded at request start neither the openai
translate nor refine is ever called in that request. -/
theorem C3_tier_order_and_gates (st : Settings) (b : Backends) (s : SysState)
    (text source_lang target_lang : String) (options : TranslationOptions) :
    List.Sublist
      (translateCallsOf
        (TranslationWorkflow.translate st b s text source_lang target_lang options).2.2)
      ["deepl", "openai", "google"]
    ∧ (is_quota_exceeded s "deepl" = true →
        Event.translateCall "deepl" ∉
          (TranslationWorkflow.translate st b s text source_lang target_lang options).2.2)
    ∧ (is_openai_budget_exceeded st s = true →
        Event.translateCall "openai" ∉
          (TranslationWorkflow.translate st b s text source_lang target_lang options).2.2 ∧
        Event.refineCall ∉
          (TranslationWorkflow.translate st b s text source_lang target_lang options).2.2) := by
  have hnoref : Event.refineCall ∉ (execute_translation_chain st b s).2.2 := by
    intro hc
    rcases chain_mem st b s _ hc with h | h | h | h | h | h <;> simp at h
  rcases translate_events_cases st b s text source_lang target_lang options with
    ⟨k, hev⟩ | hev | ⟨k, evr, hev, hmem, hbud⟩
  · rw [hev]
    refine ⟨by simp [translateCallsOf], ?_, ?_⟩
    · intro _ hc
      simp at hc
    · intro _
      constructor <;> intro hc <;> simp at hc
  · rw [hev]
    refine ⟨chain_calls st b s, fun hq => chain_quota st b s hq, fun hb =>
      ⟨(chain_budget st b s hb).2, hnoref⟩⟩
  · rw [hev]
    refine ⟨?_, ?_, ?_⟩
    · rw [translateCallsOf_append, translateCallsOf_append,
        translateCallsOf_eq_nil evr hmem]
      have hcw : translateCallsOf [Event.cacheWrite k] = [] := rfl
      rw [hcw]
      simpa using chain_calls st b s
    · intro hq
      rw [List.mem_append, List.mem_append]
      rintro ((hc | hc) | hc)
      · exact chain_quota st b s hq hc
      · rcases hmem _ hc with h | h <;> simp at h
      · simp at hc
    · intro hb
      rw [hbud hb]
      constructor
      · rw [List.mem_append, List.mem_append]
        rintro ((hc | hc) | hc)
        · exact (chain_budget st b s hb).2 hc
        · simp at hc
        · simp at hc
      · rw [List.mem_append, List.mem_append]
        rintro ((hc | hc) | hc)
        · exact hnoref hc
        · simp at hc
        · simp at hc

/-- Claim C3 witness: with the deepl flag set and the OpenAI budget spent,
a run calls neither deepl nor openai nor refine. -/
theorem C3_tier_order_and_gates_witness :
    is_quota_exceeded sQB "deepl" = true ∧
    is_openai_budget_exceeded stD sQB = true ∧
    Event.translateCall "deepl" ∉
      (TranslationWorkflow.translate stD bNone sQB "Hello" "en" "fr" optsD).2.2 ∧
    Event.translateCall "openai" ∉
      (TranslationWorkflow.translate stD bNone sQB "Hello" "en" "fr" optsD).2.2 ∧
    Event.refineCall ∉
      (TranslationWorkflow.translate stD bNone sQB "Hello" "en" "fr" optsD).2.2 := by
  have hq : is_quota_exceeded sQB "deepl" = true := by decide
  have hb : is_openai_budget_exceeded stD sQB = true := by
    apply decide_eq_true
    have h1 : get_daily_usage sQB.db sQB.today "openai_trans" = some rowBud := by decide
    have h2 : get_daily_usage sQB.db sQB.today "openai_refine" = none := by decide
    show stD.daily_budget_openai ≤ get_total_openai_cost sQB.db sQB.today
    unfold get_total_openai_cost
    rw [h1, h2]
    norm_num [stD, rowBud]
  exact ⟨hq, hb,
    (C3_tier_order_and_gates stD bNone sQB "Hello" "en" "fr" optsD).2.1 hq,
    ((C3_tier_order_and_gates stD bNone sQB "Hello" "en" "fr" optsD).2.2 hb).1,
    ((C3_tier_order_and_gates stD bNone sQB "Hello" "en" "fr" optsD).2.2 hb).2⟩

theorem upsert_provider (db : DBState) (now : Int)
    (k sl tl ot tt p : String) (ir : Bool) (rm : Option String) (ea : Option Int) :
    (find_translation (upsert_translation db now k sl tl ot tt p ir rm ea) k).map
      (fun r => r.provider) = some p := by
  cases h : find_translation db k with
  | none => rw [upsert_insert_found db now k sl tl ot tt p ir rm ea h]; rfl
  | some old => rw [upsert_conflict_found db now k sl tl ot tt p ir rm ea old h]; rfl

theorem rcs_refine_gate (st : Settings) (b : Backends) (s : SysState)
    (text sl tl : String) (options : TranslationOptions) (k : String)
    (href : Event.refineCall ∈ (run_chain_and_store st b s text sl tl options k).2.2) :
    options.enable_refinement = true ∧
    (run_chain_and_store st b s text sl tl options k).1.provider ≠ some "openai" ∧
    is_openai_budget_exceeded st s = false := by
  rcases hch : execute_translation_chain st b s with ⟨rc, s1, ev1⟩
  have hnoref1 : Event.refineCall ∉ ev1 := by
    intro hc
    rcases chain_mem st b s _ (by rw [hch]; exact hc) with h | h | h | h | h | h <;>
      simp at h
  cases rc with
  | none =>
    rw [rcs_failure st b s text sl tl options k s1 ev1 hch] at href
    exact absurd href hnoref1
  | some rp =>
    obtain ⟨r, p⟩ := rp
    simp only [run_chain_and_store, hch] at href ⊢
    rw [List.mem_append, List.mem_append] at href
    rcases href with (href | href) | href
    · exact absurd href hnoref1
    · by_cases hcnd : (options.enable_refinement && !(p == "openai")) = true
      · have hen : options.enable_refinement = true := by
          revert hcnd
          cases options.enable_refinement <;> simp
        have hp : (p == "openai") = false := by
          revert hcnd
          cases hpo : (p == "openai") <;> simp
        have hpne : p ≠ "openai" := by
          rw [beq_eq_false_iff_ne] at hp
          exact hp
        cases hbs : is_openai_budget_exceeded st s with
        | true =>
          exfalso
          have hb1 := (chain_budget st b s hbs).1
          rw [hch] at hb1
          have hb1' : is_openai_budget_exceeded st s1 = true := hb1
          rw [if_pos hcnd, try_refinement_skip st b s1 hb1'] at href
          simp at href
        | false =>
          refine ⟨hen, ?_, rfl⟩
          intro hc
          rw [Option.some_inj] at hc
          exact hpne hc
      · rw [if_neg hcnd] at href
        simp at href
    · simp at href

/-- Claim C5: refinement runs only when enabled, when the producing provider
is not openai and when the combined OpenAI budget is not exceeded; a
successful refinement yields the refined text with is_refined = true and
records usage under openai_refine; a failed refinement returns the
unrefined draft with success = true; and the cache row written in the store
step always carries the provider of the translation step. -/
theorem C5_refinement_contract (st : Settings) (b : Backends) (s : SysState)
    (text source_lang target_lang : String) (options : TranslationOptions) :
    (Event.refineCall ∈
        (TranslationWorkflow.translate st b s text source_lang target_lang options).2.2 →
      options.enable_refinement = true ∧
      (TranslationWorkflow.translate st b s text source_lang target_lang options).1.provider ≠
        some "openai" ∧
      is_openai_budget_exceeded st s = false)
    ∧ (∀ r p s1 ev1 rr,
      get_cached_translation s.db s.now
          (generate_cache_key text source_lang target_lang (some options.format_type)) = none →
      execute_translation_chain st b s = (some (r, p), s1, ev1) →
      (options.enable_refinement && !(p == "openai")) = true →
      is_openai_budget_exceeded st s1 = false →
      b.openai_refine_outcome = RefineOutcome.ok rr →
      (TranslationWorkflow.translate st b s text source_lang target_lang options).1 =
        { success := true, text := some rr.text, provider := some p,
          is_refined := true, is_cached := false } ∧
      Event.usageRecord "openai_refine" ∈
        (TranslationWorkflow.translate st b s text source_lang target_lang options).2.2 ∧
      (TranslationWorkflow.translate st b s text source_lang target_lang options).2.1.db.usage =
        (record_usage s1 "openai_refine" 0 rr.token_input rr.token_output
          rr.cost_estimated).db.usage)
    ∧ (∀ r p s1 ev1,
      get_cached_translation s.db s.now
          (generate_cache_key text source_lang target_lang (some options.format_type)) = none →
      execute_translation_chain st b s = (some (r, p), s1, ev1) →
      (options.enable_refinement && !(p == "openai")) = true →
      is_openai_budget_exceeded st s1 = false →
      b.openai_refine_outcome = RefineOutcome.refineError →
      (TranslationWorkflow.translate st b s text source_lang target_lang options).1 =
        { success := true, text := some r.text, provider := some p,
          is_refined := false, is_cached := false })
    ∧ (∀ r p s1 ev1,
      get_cached_translation s.db s.now
          (generate_cache_key text source_lang target_lang (some options.format_type)) = none →
      execute_translation_chain st b s = (some (r, p), s1, ev1) →
      (find_translation
          (TranslationWorkflow.translate st b s text source_lang target_lang options).2.1.db
          (generate_cache_key text source_lang target_lang (some options.format_type))).map
        (fun row => row.provider) = some p) := by
  refine ⟨?_, ?_, ?_, ?_⟩
  · intro href
    cases hc : get_cached_translation s.db s.now
        (generate_cache_key text source_lang target_lang (some options.format_type)) with
    | some cached =>
      cases hcond : (!options.enable_refinement || cached.is_refined) with
      | true =>
        exfalso
        simp only [TranslationWorkflow.translate, hc, hcond, if_true] at href
        simp at href
      | false =>
        have hred : TranslationWorkflow.translate st b s text source_lang target_lang options =
            run_chain_and_store st b s text source_lang target_lang options
              (generate_cache_key text source_lang target_lang (some options.format_type)) := by
          simp only [TranslationWorkflow.translate, hc, hcond]
          simp
        rw [hred] at href ⊢
        exact rcs_refine_gate st b s text source_lang target_lang options _ href
    | none =>
      have hred : TranslationWorkflow.translate st b s text source_lang target_lang options =
          run_chain_and_store st b s text source_lang target_lang options
            (generate_cache_key text source_lang target_lang (some options.format_type)) := by
        simp only [TranslationWorkflow.translate, hc]
      rw [hred] at href ⊢
      exact rcs_refine_gate st b s text source_lang target_lang options _ href
  · intro r p s1 ev1 rr hm hch hcnd hbs horef
    have hred : TranslationWorkflow.translate st b s text source_lang target_lang options =
        run_chain_and_store st b s text source_lang target_lang options
          (generate_cache_key text source_lang target_lang (some options.format_type)) := by
      simp only [TranslationWorkflow.translate, hm]
    rw [hred,
      rcs_success_refine_ok st b s text source_lang target_lang options _ r p s1 ev1 rr
        hch hcnd hbs horef]
    refine ⟨rfl, by simp, ?_⟩
    exact upsert_usage _ _ _ _ _ _ _ _ _ _ _
  · intro r p s1 ev1 hm hch hcnd hbs horef
    have hred : TranslationWorkflow.translate st b s text source_lang target_lang options =
        run_chain_and_store st b s text source_lang target_lang options
          (generate_cache_key text source_lang target_lang (some options.format_type)) := by
      simp only [TranslationWorkflow.translate, hm]
    rw [hred,
      rcs_success_refine_fail st b s text source_lang target_lang options _ r p s1 ev1
        hch hcnd hbs horef]
  · intro r p s1 ev1 hm hch
    have hred : TranslationWorkflow.translate st b s text source_lang target_lang options =
        run_chain_and_store st b s text source_lang target_lang options
          (generate_cache_key text source_lang target_lang (some options.format_type)) := by
      simp only [TranslationWorkflow.translate, hm]
    rw [hred]
    by_cases hcnd : (options.enable_refinement && !(p == "openai")) = true
    · cases hbs : is_openai_budget_exceeded st s1 with
      | true =>
        rw [rcs_success_refine_budget st b s text source_lang target_lang options _
          r p s1 ev1 hch hcnd hbs]
        exact upsert_provider _ _ _ _ _ _ _ _ _ _ _
      | false =>
        cases horef : b.openai_refine_outcome with
        | ok rr =>
          rw [rcs_success_refine_ok st b s text source_lang target_lang options _
            r p s1 ev1 rr hch hcnd hbs horef]
          exact upsert_provider _ _ _ _ _ _ _ _ _ _ _
        | refineError =>
          rw [rcs_success_refine_fail st b s text source_lang target_lang options _
            r p s1 ev1 hch hcnd hbs horef]
          exact upsert_provider _ _ _ _ _ _ _ _ _ _ _
    · have hcnd' : (options.enable_refinement && !(p == "openai")) = false := by
        simpa using hcnd
      rw [rcs_success_norefine st b s text source_lang target_lang options _
        r p s1 ev1 hch hcnd']
      exact upsert_provider _ _ _ _ _ _ _ _ _ _ _

set_option maxRecDepth 8192 in
/-- Claim C5 witness: a deepl draft refined by openai comes back as the
refined text with is_refined = true. -/
theorem C5_refinement_contract_witness :
    get_cached_translation s0.db s0.now
      (generate_cache_key "Hello" "en" "fr" (some optsR.format_type)) = none ∧
    execute_translation_chain stD bRef s0 =
      (some (resD, "deepl"), sRec,
       [Event.translateCall "deepl", Event.usageRecord "deepl"]) ∧
    (optsR.enable_refinement && !(("deepl" : String) == "openai")) = true ∧
    is_openai_budget_exceeded stD sRec = false ∧
    bRef.openai_refine_outcome = RefineOutcome.ok refR ∧
    (TranslationWorkflow.translate stD bRef s0 "Hello" "en" "fr" optsR).1 =
      { success := true, text := some refR.text, provider := some "deepl",
        is_refined := true, is_cached := false } := by
  have hm : get_cached_translation s0.db s0.now
      (generate_cache_key "Hello" "en" "fr" (some optsR.format_type)) = none := rfl
  have hch : execute_translation_chain stD bRef s0 =
      (some (resD, "deepl"), sRec,
       [Event.translateCall "deepl", Event.usageRecord "deepl"]) := by decide
  have hbs : is_openai_budget_exceeded stD sRec = false := by
    apply decide_eq_false
    have h1 : get_daily_usage sRec.db sRec.today "openai_trans" = none := by decide
    have h2 : get_daily_usage sRec.db sRec.today "openai_refine" = none := by decide
    intro hc
    unfold get_total_openai_cost at hc
    rw [h1, h2] at hc
    norm_num [stD] at hc
  exact ⟨hm, hch, by decide, hbs, rfl,
    ((C5_refinement_contract stD bRef s0 "Hello" "en" "fr" optsR).2.1 resD "deepl"
      sRec [Event.translateCall "deepl", Event.usageRecord "deepl"] refR hm hch
      (by decide) hbs rfl).1⟩

theorem get_daily_usage_congr (db1 db2 : DBState) (h : db1.usage = db2.usage)
    (d p : String) : get_daily_usage db1 d p = get_daily_usage db2 d p := by
  unfold get_daily_usage
  rw [h]

theorem translate_usage_frames (st : Settings) (b : Backends) (s : SysState)
    (text source_lang target_lang : String) (options : TranslationOptions) :
    (∀ d, get_daily_usage
        (TranslationWorkflow.translate st b s text source_lang target_lang options).2.1.db
        d "cache" =
      get_daily_usage s.db d "cache") ∧
    ((TranslationWorkflow.translate st b s text source_lang target_lang options).2.1.db.usage.filter
        (fun r => r.provider == "cache") =
      s.db.usage.filter (fun r => r.provider == "cache")) := by
  rcases hch : execute_translation_chain st b s with ⟨rc, s1, ev1⟩
  have hg1 : ∀ d, get_daily_usage s1.db d "cache" = get_daily_usage s.db d "cache" := by
    intro d
    have h := chain_cache_get st b s d
    rw [hch] at h
    exact h
  have hf1 : s1.db.usage.filter (fun r => r.provider == "cache") =
      s.db.usage.filter (fun r => r.provider == "cache") := by
    have h := chain_cache_filter st b s
    rw [hch] at h
    exact h
  cases hc : get_cached_translation s.db s.now
      (generate_cache_key text source_lang target_lang (some options.format_type)) with
  | some cached =>
    cases hcond : (!options.enable_refinement || cached.is_refined) with
    | true =>
      have hred : (TranslationWorkflow.translate st b s text source_lang target_lang options).2.1 =
          { s with
            db := update_last_accessed s.db s.now
              (generate_cache_key text source_lang target_lang (some options.format_type)) } := by
        simp only [TranslationWorkflow.translate, hc, hcond, if_true]
      rw [hred]
      exact ⟨fun d => rfl, rfl⟩
    | false =>
      have hred : (TranslationWorkflow.translate st b s text source_lang target_lang options).2.1 =
          (run_chain_and_store st b s text source_lang target_lang options
            (generate_cache_key text source_lang target_lang (some options.format_type))).2.1 := by
        simp only [TranslationWorkflow.translate, hc, hcond]
        simp
      rw [hred]
      cases rc with
      | none =>
        rw [rcs_failure st b s text source_lang target_lang options _ s1 ev1 hch]
        exact ⟨hg1, hf1⟩
      | some rp =>
        obtain ⟨r, p⟩ := rp
        by_cases hcnd : (options.enable_refinement && !(p == "openai")) = true
        · cases hbs : is_openai_budget_exceeded st s1 with
          | true =>
            rw [rcs_success_refine_budget st b s text source_lang target_lang options _
              r p s1 ev1 hch hcnd hbs]
            refine ⟨fun d => ?_, ?_⟩
            · rw [get_daily_usage_congr _ s1.db (upsert_usage _ _ _ _ _ _ _ _ _ _ _)]
              exact hg1 d
            · rw [show ({ s1 with
                  db := upsert_translation s1.db s1.now
                    (generate_cache_key text source_lang target_lang (some options.format_type))
                    source_lang target_lang text r.text p false none none } :
                  SysState).db.usage = s1.db.usage from
                upsert_usage _ _ _ _ _ _ _ _ _ _ _]
              exact hf1
          | false =>
            cases horef : b.openai_refine_outcome with
            | ok rr =>
              rw [rcs_success_refine_ok st b s text source_lang target_lang options _
                r p s1 ev1 rr hch hcnd hbs horef]
              refine ⟨fun d => ?_, ?_⟩
              · rw [get_daily_usage_congr _
                  (record_usage s1 "openai_refine" 0 rr.token_input rr.token_output
                    rr.cost_estimated).db (upsert_usage _ _ _ _ _ _ _ _ _ _ _)]
                rw [record_usage_cache_get s1 "openai_refine" 0 rr.token_input
                  rr.token_output rr.cost_estimated (by decide) d]
                exact hg1 d
              · rw [show ({ record_usage s1 "openai_refine" 0 rr.token_input rr.token_output
                      rr.cost_estimated with
                    db := upsert_translation
                      (record_usage s1 "openai_refine" 0 rr.token_input rr.token_output
                        rr.cost_estimated).db
                      (record_usage s1 "openai_refine" 0 rr.token_input rr.token_output
                        rr.cost_estimated).now
                      (generate_cache_key text source_lang target_lang (some options.format_type))
                      source_lang target_lang text rr.text p true (some rr.model) none } :
                    SysState).db.usage =
                  (record_usage s1 "openai_refine" 0 rr.token_input rr.token_output
                    rr.cost_estimated).db.usage from
                  upsert_usage _ _ _ _ _ _ _ _ _ _ _]
                rw [record_usage_cache_filter s1 "openai_refine" 0 rr.token_input
                  rr.token_output rr.cost_estimated (by decide)]
                exact hf1
            | refineError =>
              rw [rcs_success_refine_fail st b s text source_lang target_lang options _
                r p s1 ev1 hch hcnd hbs horef]
              refine ⟨fun d => ?_, ?_⟩
              · rw [get_daily_usage_congr _ s1.db (upsert_usage _ _ _ _ _ _ _ _ _ _ _)]
                exact hg1 d
              · rw [show ({ s1 with
                    db := upsert_translation s1.db s1.now
                      (generate_cache_key text source_lang target_lang (some options.format_type))
                      source_lang target_lang text r.text p false none none } :
                    SysState).db.usage = s1.db.usage from
                  upsert_usage _ _ _ _ _ _ _ _ _ _ _]
                exact hf1
        · have hcnd' : (options.enable_refinement && !(p == "openai")) = false := by
            simpa using hcnd
          rw [rcs_success_norefine st b s text source_lang target_lang options _
            r p s1 ev1 hch hcnd']
          refine ⟨fun d => ?_, ?_⟩
          · rw [get_daily_usage_congr _ s1.db (upsert_usage _ _ _ _ _ _ _ _ _ _ _)]
            exact hg1 d
          · rw [show ({ s1 with
                db := upsert_translation s1.db s1.now
                  (generate_cache_key text source_lang target_lang (some options.format_type))
                  source_lang target_lang text r.text p false none none } :
                SysState).db.usage = s1.db.usage from
              upsert_usage _ _ _ _ _ _ _ _ _ _ _]
            exact hf1
  | none =>
    have hred : (TranslationWorkflow.translate st b s text source_lang target_lang options).2.1 =
        (run_chain_and_store st b s text source_lang target_lang options
          (generate_cache_key text source_lang target_lang (some options.format_type))).2.1 := by
      simp only [TranslationWorkflow.translate, hc]
    rw [hred]
    cases rc with
    | none =>
      rw [rcs_failure st b s text source_lang target_lang options _ s1 ev1 hch]
      exact ⟨hg1, hf1⟩
    | some rp =>
      obtain ⟨r, p⟩ := rp
      by_cases hcnd : (options.enable_refinement && !(p == "openai")) = true
      · cases hbs : is_openai_budget_exceeded st s1 with
        | true =>
          rw [rcs_success_refine_budget st b s text source_lang target_lang options _
            r p s1 ev1 hch hcnd hbs]
          refine ⟨fun d => ?_, ?_⟩
          · rw [get_daily_usage_congr _ s1.db (upsert_usage _ _ _ _ _ _ _ _ _ _ _)]
            exact hg1 d
          · rw [show ({ s1 with
                db := upsert_translation s1.db s1.now
                  (generate_cache_key text source_lang target_lang (some options.format_type))
                  source_lang target_lang text r.text p false none none } :
                SysState).db.usage = s1.db.usage from
              upsert_usage _ _ _ _ _ _ _ _ _ _ _]
            exact hf1
        | false =>
          cases horef : b.openai_refine_outcome with
          | ok rr =>
            rw [rcs_success_refine_ok st b s text source_lang target_lang options _
              r p s1 ev1 rr hch hcnd hbs horef]
            refine ⟨fun d => ?_, ?_⟩
            · rw [get_daily_usage_congr _
                (record_usage s1 "openai_refine" 0 rr.token_input rr.token_output
                  rr.cost_estimated).db (upsert_usage _ _ _ _ _ _ _ _ _ _ _)]
              rw [record_usage_cache_get s1 "openai_refine" 0 rr.token_input
                rr.token_output rr.cost_estimated (by decide) d]
              exact hg1 d
            · rw [show ({ record_usage s1 "openai_refine" 0 rr.token_input rr.token_output
                    rr.cost_estimated with
                  db := upsert_translation
                    (record_usage s1 "openai_refine" 0 rr.token_input rr.token_output
                      rr.cost_estimated).db
                    (record_usage s1 "openai_refine" 0 rr.token_input rr.token_output
                      rr.cost_estimated).now
                    (generate_cache_key text source_lang target_lang (some options.format_type))
                    source_lang target_lang text rr.text p true (some rr.model) none } :
                  SysState).db.usage =
                (record_usage s1 "openai_refine" 0 rr.token_input rr.token_output
                  rr.cost_estimated).db.usage from
                upsert_usage _ _ _ _ _ _ _ _ _ _ _]
              rw [record_usage_cache_filter s1 "openai_refine" 0 rr.token_input
                rr.token_output rr.cost_estimated (by decide)]
              exact hf1
          | refineError =>
            rw [rcs_success_refine_fail st b s text source_lang target_lang options _
              r p s1 ev1 hch hcnd hbs horef]
            refine ⟨fun d => ?_, ?_⟩
            · rw [get_daily_usage_congr _ s1.db (upsert_usage _ _ _ _ _ _ _ _ _ _ _)]
              exact hg1 d
            · rw [show ({ s1 with
                  db := upsert_translation s1.db s1.now
                    (generate_cache_key text source_lang target_lang (some options.format_type))
                    source_lang target_lang text r.text p false none none } :
                  SysState).db.usage = s1.db.usage from
                upsert_usage _ _ _ _ _ _ _ _ _ _ _]
              exact hf1
      · have hcnd' : (options.enable_refinement && !(p == "openai")) = false := by
          simpa using hcnd
        rw [rcs_success_norefine st b s text source_lang target_lang options _
          r p s1 ev1 hch hcnd']
        refine ⟨fun d => ?_, ?_⟩
        · rw [get_daily_usage_congr _ s1.db (upsert_usage _ _ _ _ _ _ _ _ _ _ _)]
          exact hg1 d
        · rw [show ({ s1 with
              db := upsert_translation s1.db s1.now
                (generate_cache_key text source_lang target_lang (some options.format_type))
                source_lang target_lang text r.text p false none none } :
              SysState).db.usage = s1.db.usage from
            upsert_usage _ _ _ _ _ _ _ _ _ _ _]
          exact hf1

/-- Claim C10: a cache-hit return performs no usage recording at all — the
daily_usage_stats table is untouched and no usage event is emitted; in any
run, usage rows are written only under the four backend providers, never
under provider cache; rows with provider cache are never created or
modified by translate, so the cache-hit count the dashboard reads from
them is unaffected by the core. -/
theorem C10_no_cache_usage_rows (st : Settings) (b : Backends) (s : SysState)
    (text source_lang target_lang : String) (options : TranslationOptions) :
    (∀ cached,
      get_cached_translation s.db s.now
        (generate_cache_key text source_lang target_lang (some options.format_type)) =
        some cached →
      (options.enable_refinement = false ∨ cached.is_refined = true) →
      (TranslationWorkflow.translate st b s text source_lang target_lang options).2.1.db.usage =
        s.db.usage ∧
      (∀ p, Event.usageRecord p ∉
        (TranslationWorkflow.translate st b s text source_lang target_lang options).2.2))
    ∧ (∀ p, Event.usageRecord p ∈
        (TranslationWorkflow.translate st b s text source_lang target_lang options).2.2 →
        p = "deepl" ∨ p = "openai_trans" ∨ p = "openai_refine" ∨ p = "google")
    ∧ (∀ d, get_daily_usage
        (TranslationWorkflow.translate st b s text source_lang target_lang options).2.1.db
        d "cache" =
      get_daily_usage s.db d "cache")
    ∧ dashboard_cache_hits
        (TranslationWorkflow.translate st b s text source_lang target_lang options).2.1.db =
      dashboard_cache_hits s.db := by
  refine ⟨?_, ?_, (translate_usage_frames st b s text source_lang target_lang options).1, ?_⟩
  · intro cached hcache href
    have hcond : (!options.enable_refinement || cached.is_refined) = true := by
      rcases href with h | h <;> simp [h]
    have hred : TranslationWorkflow.translate st b s text source_lang target_lang options =
        ({ success := true, text := some cached.translated_text,
           provider := some "cache", is_refined := cached.is_refined,
           is_cached := true },
         { s with
           db := update_last_accessed s.db s.now
             (generate_cache_key text source_lang target_lang (some options.format_type)) },
         [Event.touch
           (generate_cache_key text source_lang target_lang (some options.format_type))]) := by
      simp only [TranslationWorkflow.translate, hcache, hcond, if_true]
    rw [hred]
    refine ⟨rfl, ?_⟩
    intro p hp
    simp at hp
  · intro p hp
    rcases translate_events_cases st b s text source_lang target_lang options with
      ⟨k, hev⟩ | hev | ⟨k, evr, hev, hmem, -⟩
    · rw [hev] at hp
      simp at hp
    · rw [hev] at hp
      rcases chain_mem st b s _ hp with h | h | h | h | h | h <;> simp at h <;> tauto
    · rw [hev] at hp
      rw [List.mem_append, List.mem_append] at hp
      rcases hp with (hp | hp) | hp
      · rcases chain_mem st b s _ hp with h | h | h | h | h | h <;> simp at h <;> tauto
      · rcases hmem _ hp with h | h <;> simp at h <;> tauto
      · simp at hp
  · unfold dashboard_cache_hits
    rw [(translate_usage_frames st b s text source_lang target_lang options).2]

set_option maxRecDepth 8192 in
/-- Claim C10 witness: the concrete cache hit leaves the usage table
untouched. -/
theorem C10_no_cache_usage_rows_witness :
    get_cached_translation sHit.db sHit.now
      (generate_cache_key "Hello" "en" "fr" (some optsD.format_type)) = some rowHit ∧
    (optsD.enable_refinement = false ∨ rowHit.is_refined = true) ∧
    (TranslationWorkflow.translate stD bNone sHit "Hello" "en" "fr" optsD).2.1.db.usage =
      sHit.db.usage :=
  ⟨by decide, Or.inl rfl,
   ((C10_no_cache_usage_rows stD bNone sHit "Hello" "en" "fr" optsD).1 rowHit
      (by decide) (Or.inl rfl)).1⟩
